import Mathlib

/-!
Verification development for the solana-mev-arbitrage repository.

The Rust source is shallowly embedded: pure fragments become Lean
functions, `f64` arithmetic is modelled over `ℚ` (exact rationals; the
claims under study are about control flow and exact comparisons, not
rounding), `u64`/`i64` values become `ℕ`/`ℤ` with explicit `% 2^64`
reduction or saturation where the Rust operation wraps or saturates,
and Rust panics (out-of-bounds slicing) become an explicit `crash`
outcome.  Mints and pool accounts (`Pubkey`) are opaque identifiers,
modelled as `ℕ` in the engine and as raw 32-byte lists in the byte
decoders.
-/

attribute [local semireducible] Rat.mul Rat.add Rat.sub Rat.inv

/-- Modulus of Rust `u64` arithmetic. -/
def U64MOD : ℕ := 2 ^ 64

/-- Value of Rust `f64::MAX`, exactly: `(2 - 2^-52) * 2^1023` (written
over `ℕ` so that concrete comparisons against it evaluate). -/
def F64MAX : ℚ := ((2 ^ 1024 - 2 ^ 971 : ℕ) : ℚ)

/-- Rust `as u64` cast of a (mathematically exact) float value:
truncation toward zero, saturating at the `u64` range (Rust float-to-int
casts saturate; negative values clamp to `0`). -/
def toU64 (q : ℚ) : ℕ :=
  if q ≤ 0 then 0 else min (U64MOD - 1) ⌊q⌋.toNat

/-- Rust `as i64` cast of an exact float value: truncation toward zero,
saturating at the `i64` bounds. -/
def toI64 (q : ℚ) : ℤ :=
  max (-(2 ^ 63)) (min (2 ^ 63 - 1) (q.num.tdiv q.den))

/-- Outcome of running a Rust function that may panic (`crash`, e.g. an
out-of-bounds slice) or return a recoverable error (`err`, an
`anyhow::Error`). -/
inductive Outcome (α : Type) where
  | crash : Outcome α
  | err : Outcome α
  | ok : α → Outcome α
deriving DecidableEq

def Outcome.bind {α β : Type} : Outcome α → (α → Outcome β) → Outcome β
  | .crash, _ => .crash
  | .err, _ => .err
  | .ok a, f => f a

/-! ## Engine data model (src/engine/types.rs) -/

/-- Opaque 32-byte account identifier, engine side. -/
abbrev Pubkey := ℕ

/-- DexType (src/engine/types.rs, lines 4-10). -/
inductive DexType where
  | pump | raydiumV4 | raydiumCp | raydiumClmm
  | meteoraDlmm | meteoraDamm | meteoraDammV2
  | whirlpool | vertigo | heaven | futarchy | humidifi
  | pancakeSwap | byreal
deriving DecidableEq

/-- PoolEdge (src/engine/types.rs, lines 12-21).  Note: the struct has
no destination-mint field; an edge only records its pool account. -/
structure PoolEdge where
  pool_pubkey : Pubkey
  dex_type : DexType
  price : ℚ
  liquidity_usd : ℚ
  fee_bps : ℕ
  inverse_fee_bps : ℕ
  token_program : Pubkey
deriving DecidableEq

/-- SwapLeg (src/engine/types.rs, lines 23-31). -/
structure SwapLeg where
  from_mint : Pubkey
  to_mint : Pubkey
  pool_pubkey : Pubkey
  dex_type : DexType
  amount_in : ℕ
  estimated_amount_out : ℕ
deriving DecidableEq

/-- ArbitrageCycle (src/engine/types.rs, lines 33-39). -/
structure ArbitrageCycle where
  legs : List SwapLeg
  total_profit_bps : ℤ
  estimated_profit_lamports : ℕ
  total_hops : ℕ
deriving DecidableEq

/-! ## Price graph (src/engine/graph.rs)

The `DashMap<Pubkey, Vec<PoolEdge>>` is modelled as an association list
whose iteration order is the per-tick insertion order. -/

abbrev PriceGraph := List (Pubkey × List PoolEdge)

/-- PriceGraph::add_edge (src/engine/graph.rs, lines 688-692):
`self.edges.entry(from_mint).or_insert_with(Vec::new).push(edge)`.
The `to_mint` argument is accepted and ignored, exactly as in the
source (it is only used for the debug log line). -/
def addEdge : PriceGraph → Pubkey → Pubkey → PoolEdge → PriceGraph
  | [], from_mint, _, edge => [(from_mint, [edge])]
  | (k, es) :: rest, from_mint, to_mint, edge =>
    if k = from_mint then (k, es ++ [edge]) :: rest
    else (k, es) :: addEdge rest from_mint to_mint edge

/-- Read-only view of a source mint's bucket (empty when absent). -/
def edgesOf (g : PriceGraph) (mint : Pubkey) : List PoolEdge :=
  match g.find? (fun kv => kv.1 = mint) with
  | some kv => kv.2
  | none => []

/-- One ingestion tick, seen from the graph: the driver performs a
sequence of `add_edge(from, to, edge)` calls against the shared graph
(src/bot.rs lines 124-127 call `update_from_mint_pool_data` per mint;
no code path ever removes or clears edges). -/
def applyTick (g : PriceGraph) (adds : List (Pubkey × Pubkey × PoolEdge)) : PriceGraph :=
  adds.foldl (fun g a => addEdge g a.1 a.2.1 a.2.2) g

/-! ## Token-vault balance extraction (src/engine/graph.rs, lines 201-209) -/

/-- Little-endian word value of a byte list. -/
def le64 (bytes : List (Fin 256)) : ℕ :=
  bytes.foldr (fun b acc => b.val + 256 * acc) 0

/-- Rust slice `data[s..e]`: panics when the range is out of bounds. -/
def sliceBytes (data : List (Fin 256)) (s e : ℕ) : Outcome (List (Fin 256)) :=
  if s ≤ e ∧ e ≤ data.length then .ok ((data.drop s).take (e - s)) else .crash

/-- PriceGraph::parse_token_amount (src/engine/graph.rs, lines 201-209):
`if data.len() < 64 { return 0 }` then
`amount_bytes.copy_from_slice(&data[64..72]); u64::from_le_bytes(...)`.
The slice `data[64..72]` panics whenever `data.len() < 72`, which the
length guard does not exclude. -/
def parse_token_amount (data : List (Fin 256)) : Outcome ℕ :=
  if data.length < 64 then .ok 0
  else (sliceBytes data 64 72).bind fun amount_bytes => .ok (le64 amount_bytes)

/-! ## Pool-layout decoders (src/dex) -/

/-- Raw 32-byte identifier as read by the byte decoders. -/
abbrev RawPubkey := List (Fin 256)

/-- Shared helper `slice_to_pubkey(data, start, end)` of the decoders:
`data[start..end].try_into()`.  The slice panics when `end` exceeds the
buffer length; `try_into` to `[u8; 32]` always succeeds afterwards
because every call site uses `end = start + 32`. -/
def slice_to_pubkey (data : List (Fin 256)) (s e : ℕ) : Outcome RawPubkey :=
  sliceBytes data s e

structure SolfiInfo where
  base_mint : RawPubkey
  quote_mint : RawPubkey
  base_vault : RawPubkey
  quote_vault : RawPubkey
deriving DecidableEq

/-- SolfiInfo::load_checked (src/dex/solfi/info.rs, lines 20-32): four
fixed-offset reads with no length guard of any kind. -/
def SolfiInfo.load_checked (data : List (Fin 256)) : Outcome SolfiInfo :=
  (slice_to_pubkey data 2664 2696).bind fun base_mint =>
  (slice_to_pubkey data 2696 2728).bind fun quote_mint =>
  (slice_to_pubkey data 2736 2768).bind fun base_vault =>
  (slice_to_pubkey data 2768 2800).bind fun quote_vault =>
  .ok ⟨base_mint, quote_mint, base_vault, quote_vault⟩

structure MeteoraDAmmV2Info where
  base_mint : RawPubkey
  quote_mint : RawPubkey
  base_vault : RawPubkey
  quote_vault : RawPubkey
deriving DecidableEq

/-- MeteoraDAmmV2Info::load_checked (src/dex/meteora/dammv2_info.rs,
lines 20-31): four fixed-offset reads with no length guard. -/
def MeteoraDAmmV2Info.load_checked (data : List (Fin 256)) : Outcome MeteoraDAmmV2Info :=
  (slice_to_pubkey data 168 200).bind fun base_mint =>
  (slice_to_pubkey data 200 232).bind fun quote_mint =>
  (slice_to_pubkey data 232 264).bind fun base_vault =>
  (slice_to_pubkey data 264 296).bind fun quote_vault =>
  .ok ⟨base_mint, quote_mint, base_vault, quote_vault⟩

structure RaydiumAmmInfo where
  coin_mint : RawPubkey
  pc_mint : RawPubkey
  coin_vault : RawPubkey
  pc_vault : RawPubkey
deriving DecidableEq

/-- RaydiumAmmInfo::load_checked (src/dex/raydium/amm_info.rs, lines
26-42): `if data.len() < PC_MINT_OFFSET + 32` (432 + 32 = 464) returns
the malformed-layout error, then four fixed-offset reads. -/
def RaydiumAmmInfo.load_checked (data : List (Fin 256)) : Outcome RaydiumAmmInfo :=
  if data.length < 432 + 32 then .err
  else
    (slice_to_pubkey data 336 368).bind fun coin_vault =>
    (slice_to_pubkey data 368 400).bind fun pc_vault =>
    (slice_to_pubkey data 400 432).bind fun coin_mint =>
    (slice_to_pubkey data 432 464).bind fun pc_mint =>
    .ok ⟨coin_mint, pc_mint, coin_vault, pc_vault⟩

/-! ## Cycle detector (src/engine/detect.rs)

`HashMap` lookups/inserts are modelled over association lists with
replace-on-insert.  `f64::MAX` is the exact rational `F64MAX`. -/

/-- HashMap::get. -/
def mapGet {α : Type} (m : List (Pubkey × α)) (k : Pubkey) : Option α :=
  match m.find? (fun kv => kv.1 = k) with
  | some kv => some kv.2
  | none => none

/-- HashMap::insert (replace an existing key, else append). -/
def mapInsert {α : Type} : List (Pubkey × α) → Pubkey → α → List (Pubkey × α)
  | [], k, v => [(k, v)]
  | (k', v') :: rest, k, v =>
    if k' = k then (k, v) :: rest else (k', v') :: mapInsert rest k v

/-- `distances.get(&m).copied().unwrap_or(f64::MAX)`. -/
def distGet (d : List (Pubkey × ℚ)) (m : Pubkey) : ℚ :=
  (mapGet d m).getD F64MAX

/-- Mutable state of the Bellman-Ford relaxation in
CycleDetector::find_negative_cycles. -/
structure BFState where
  distances : List (Pubkey × ℚ)
  predecessors : List (Pubkey × (Pubkey × PoolEdge))
  updated : Bool
deriving DecidableEq

/-- Body of the inner relaxation loop (src/engine/detect.rs, lines
30-39): the relaxation target is `edge.pool_pubkey` — the pool account
carried by the edge — since `PoolEdge` stores no destination mint. -/
def relaxEdge (st : BFState) (from_mint : Pubkey) (edge : PoolEdge) : BFState :=
  let current_dist := distGet st.distances from_mint
  let new_dist := current_dist * edge.price
  if new_dist < distGet st.distances edge.pool_pubkey then
    { distances := mapInsert st.distances edge.pool_pubkey new_dist
      predecessors := mapInsert st.predecessors edge.pool_pubkey (from_mint, edge)
      updated := true }
  else st

/-- One full pass over `graph.edges.iter()` (src/engine/detect.rs,
lines 25-40), with the per-round `updated` flag reset at entry. -/
def relaxRound (g : PriceGraph) (st : BFState) : BFState :=
  g.foldl (fun st entry => entry.2.foldl (fun st e => relaxEdge st entry.1 e) st)
    { st with updated := false }

/-- The `for _ in 0..max_hops { ... if !updated { break } }` loop
(src/engine/detect.rs, lines 24-45). -/
def bfLoop (g : PriceGraph) : ℕ → BFState → BFState
  | 0, st => st
  | n + 1, st =>
    let st' := relaxRound g st
    if st'.updated then bfLoop g n st' else st'

/-- Initial relaxation state: `distances.insert(start_mint, 1.0)`. -/
def bfInit (start_mint : Pubkey) : BFState :=
  { distances := [(start_mint, 1)], predecessors := [], updated := false }

/-- Predecessor walk of CycleDetector::reconstruct_cycle
(src/engine/detect.rs, lines 84-103).  The loop pushes at most
`max_hops + 1` elements before returning, so fuel `max_hops + 2` is
never exhausted; an exhausted-fuel result is `none`, matching the fact
that no cycle can be produced without the loop ending. -/
def walkPreds (preds : List (Pubkey × (Pubkey × PoolEdge))) (start : Pubkey)
    (min_hops max_hops : ℕ) :
    ℕ → Pubkey → List Pubkey → List (Pubkey × PoolEdge) →
    Option (List (Pubkey × PoolEdge))
  | 0, _, _, _ => none
  | fuel + 1, current, visited, path =>
    match mapGet preds current with
    | none => some path
    | some (prev, edge) =>
      if current ∈ visited then some path
      else
        let visited' := current :: visited
        let path' := path ++ [(prev, edge)]
        if prev = start ∧ min_hops ≤ path'.length then some path'
        else if max_hops < path'.length then none
        else walkPreds preds start min_hops max_hops fuel prev visited' path'

/-- Product of leg prices accumulated by reconstruct_cycle. -/
def totalPrice (path : List (Pubkey × PoolEdge)) : ℚ :=
  path.foldl (fun acc pe => acc * pe.2.price) 1

/-- The leg record built for each path element (src/engine/detect.rs,
lines 114-121): `from_mint` and `to_mint` are both set to the pool
account. -/
def legOfEdge (edge : PoolEdge) : SwapLeg :=
  { from_mint := edge.pool_pubkey
    to_mint := edge.pool_pubkey
    pool_pubkey := edge.pool_pubkey
    dex_type := edge.dex_type
    amount_in := 0
    estimated_amount_out := 0 }

/-- Rear half of reconstruct_cycle (src/engine/detect.rs, lines
105-131): hop-bound check, leg construction and
`((total_price - 1.0) * 10_000.0) as i64`. -/
def buildCycle (min_hops max_hops : ℕ) (path : List (Pubkey × PoolEdge)) :
    Option ArbitrageCycle :=
  if path.length < min_hops ∨ max_hops < path.length then none
  else
    some { legs := path.map (fun pe => legOfEdge pe.2)
           total_profit_bps := toI64 ((totalPrice path - 1) * 10000)
           estimated_profit_lamports := 0
           total_hops := path.length }

/-- CycleDetector::reconstruct_cycle (src/engine/detect.rs, lines
77-132). -/
def reconstruct_cycle (preds : List (Pubkey × (Pubkey × PoolEdge)))
    (start finish : Pubkey) (min_hops max_hops : ℕ) : Option ArbitrageCycle :=
  (walkPreds preds start min_hops max_hops (max_hops + 2) finish [] []).bind
    (buildCycle min_hops max_hops)

/-- Acceptance of a reconstructed path by the detector: the profit
filter applied to the built cycle (src/engine/detect.rs, lines 64-67
over the result of lines 105-131). -/
def acceptedPath (min_hops max_hops : ℕ) (min_profit_bps : ℤ)
    (path : List (Pubkey × PoolEdge)) : Bool :=
  match buildCycle min_hops max_hops path with
  | some cycle => min_profit_bps < cycle.total_profit_bps
  | none => false

/-- Second scan of every edge plus reconstruction and profit filter
(src/engine/detect.rs, lines 49-71).  Note the scan reads
`distances.get(&from_mint)` as an `Option` here (no MAX default). -/
def detectScan (g : PriceGraph) (st : BFState) (min_hops max_hops : ℕ)
    (min_profit_bps : ℤ) : List ArbitrageCycle :=
  g.foldl (fun acc entry =>
    entry.2.foldl (fun acc edge =>
      match mapGet st.distances entry.1 with
      | none => acc
      | some start_dist =>
        if start_dist * edge.price < distGet st.distances edge.pool_pubkey then
          match reconstruct_cycle st.predecessors entry.1 edge.pool_pubkey
              min_hops max_hops with
          | some cycle =>
            if min_profit_bps < cycle.total_profit_bps then acc ++ [cycle] else acc
          | none => acc
        else acc) acc) []

/-- CycleDetector::find_negative_cycles (src/engine/detect.rs, lines
11-75): relaxation, scan, then a stable descending sort by
`total_profit_bps`. -/
def find_negative_cycles (g : PriceGraph) (start_mint : Pubkey)
    (min_hops max_hops : ℕ) (min_profit_bps : ℤ) : List ArbitrageCycle :=
  let st := bfLoop g max_hops (bfInit start_mint)
  let cycles := detectScan g st min_hops max_hops min_profit_bps
  cycles.insertionSort (fun a b => b.total_profit_bps ≤ a.total_profit_bps)

/-! ## Amount optimizer (src/engine/optimize.rs) -/

/-- Rust wrapping `u64` subtraction `a - b` for `a, b < 2^64`. -/
def u64sub (a b : ℕ) : ℕ := (a + (U64MOD - b % U64MOD)) % U64MOD

/-- AmountOptimizer::find_edge_in_graph (src/engine/optimize.rs, lines
90-99): first edge under `leg.from_mint` matching the leg's pool and
dex type. -/
def find_edge_in_graph (g : PriceGraph) (leg : SwapLeg) : Option PoolEdge :=
  (edgesOf g leg.from_mint).find?
    (fun e => decide (e.pool_pubkey = leg.pool_pubkey ∧ e.dex_type = leg.dex_type))

/-- First edge with the given pool account, scanning every bucket in
graph iteration order (the lookup loop of calculate_slippage_bps). -/
def findPoolEdge : PriceGraph → Pubkey → Option PoolEdge
  | [], _ => none
  | (_, es) :: rest, pool =>
    match es.find? (fun e => decide (e.pool_pubkey = pool)) with
    | some e => some e
    | none => findPoolEdge rest pool

/-- AmountOptimizer::calculate_slippage_bps (src/engine/optimize.rs,
lines 104-130): `10 + (trade_usd / max(liquidity, 1) * 0.5 * 100) as
u64`, capped at 100; default 50 when the pool is not in the graph. -/
def calculate_slippage_bps (g : PriceGraph) (amount_in : ℕ) (pool_pubkey : Pubkey) : ℕ :=
  match findPoolEdge g pool_pubkey with
  | some edge =>
    let trade_size_usd : ℚ := (amount_in : ℚ) / 10 ^ 9 * 200
    let pool_liquidity_usd : ℚ := max edge.liquidity_usd 1
    let liq_fraction := trade_size_usd / pool_liquidity_usd
    let dynamic_slippage := toU64 (liq_fraction * (1 / 2) * 100)
    let total_slippage := (10 + dynamic_slippage) % U64MOD
    min total_slippage 100
  | none => 50

/-- Body of the leg loop of simulate_cycle_with_amount
(src/engine/optimize.rs, lines 65-80). -/
def simulateLeg (g : PriceGraph) (current_amount : ℕ) (leg : SwapLeg) : Option ℕ :=
  match find_edge_in_graph g leg with
  | none => none
  | some edge =>
    let slippage_bps := calculate_slippage_bps g current_amount leg.pool_pubkey
    let effective_fee_bps := (edge.fee_bps + slippage_bps) % U64MOD
    let fee_multiplier : ℚ := (u64sub 10000 effective_fee_bps : ℚ) / 10000
    let next := toU64 ((current_amount : ℚ) * edge.price * fee_multiplier)
    if next = 0 then none else some next

/-- The leg loop, threading `current_amount` and aborting on failure. -/
def simulateLegs (g : PriceGraph) : List SwapLeg → ℕ → Option ℕ
  | [], current_amount => some current_amount
  | leg :: rest, current_amount =>
    match simulateLeg g current_amount leg with
    | none => none
    | some next => simulateLegs g rest next

/-- AmountOptimizer::simulate_cycle_with_amount (src/engine/optimize.rs,
lines 62-87); only the cycle's legs are read. -/
def simulate_cycle_with_amount (g : PriceGraph) (legs : List SwapLeg)
    (initial_amount : ℕ) : Option ℕ :=
  match simulateLegs g legs initial_amount with
  | none => none
  | some final_amount =>
    if initial_amount < final_amount then some (final_amount - initial_amount)
    else none

/-- Leg loop of AmountOptimizer::update_leg_amounts
(src/engine/optimize.rs, lines 135-148): returns the rewritten legs and
the final amount. -/
def updateLegs (g : PriceGraph) : List SwapLeg → ℕ → (List SwapLeg × ℕ)
  | [], current_amount => ([], current_amount)
  | leg :: rest, current_amount =>
    let leg1 := { leg with amount_in := current_amount }
    match find_edge_in_graph g leg1 with
    | some edge =>
      let slippage_bps := calculate_slippage_bps g current_amount leg1.pool_pubkey
      let effective_fee_bps := (edge.fee_bps + slippage_bps) % U64MOD
      let fee_multiplier : ℚ := (u64sub 10000 effective_fee_bps : ℚ) / 10000
      let next := toU64 ((current_amount : ℚ) * edge.price * fee_multiplier)
      let step := updateLegs g rest next
      ({ leg1 with estimated_amount_out := next } :: step.1, step.2)
    | none =>
      let step := updateLegs g rest current_amount
      ({ leg1 with estimated_amount_out := 0 } :: step.1, step.2)

/-- AmountOptimizer::update_leg_amounts (src/engine/optimize.rs, lines
132-151); `saturating_sub` is the truncated `ℕ` subtraction. -/
def update_leg_amounts (g : PriceGraph) (cycle : ArbitrageCycle)
    (initial_amount : ℕ) : ArbitrageCycle :=
  let step := updateLegs g cycle.legs initial_amount
  { cycle with legs := step.1, estimated_profit_lamports := step.2 - initial_amount }

/-- Mutable state of the binary search in optimize_amount. -/
structure OptState where
  low : ℕ
  high : ℕ
  best_amount : ℕ
  best_profit : ℕ
deriving DecidableEq

/-- The 20-iteration binary search (src/engine/optimize.rs, lines
37-51); `(low + high) / 2` is a wrapping `u64` addition. -/
def optSearch (g : PriceGraph) (legs : List SwapLeg) (min_profit_lamports : ℕ) :
    ℕ → OptState → OptState
  | 0, s => s
  | n + 1, s =>
    let mid := (s.low + s.high) % U64MOD / 2
    let s' :=
      match simulate_cycle_with_amount g legs mid with
      | some profit =>
        if s.best_profit < profit ∧ min_profit_lamports < profit then
          { s with low := mid, best_amount := mid, best_profit := profit }
        else { s with high := mid }
      | none => { s with high := mid }
    optSearch g legs min_profit_lamports n s'

/-- AmountOptimizer::optimize_amount (src/engine/optimize.rs, lines
18-60).  The Rust method mutates `cycle` on success; the model returns
the chosen amount together with the (possibly rewritten) cycle.  The
`max_capital_lamports * capital_per_cycle_percent` product is a
wrapping `u64` multiplication. -/
def optimize_amount (g : PriceGraph) (cycle : ArbitrageCycle)
    (max_capital_lamports capital_per_cycle_percent min_profit_lamports : ℕ) :
    Option ℕ × ArbitrageCycle :=
  let max_amount := max_capital_lamports * capital_per_cycle_percent % U64MOD / 100
  let low := 1000000
  let high := max_amount
  if high < low then (none, cycle)
  else
    let s := optSearch g cycle.legs min_profit_lamports 20
      { low := low, high := high, best_amount := 0, best_profit := 0 }
    if 0 < s.best_amount ∧ min_profit_lamports < s.best_profit then
      (some s.best_amount, update_leg_amounts g cycle s.best_amount)
    else (none, cycle)

/-! ## Ingestion driver (src/engine/graph.rs, process_*_pools)

Each `process_*_pools` function fetches accounts over RPC, derives a
price and a liquidity estimate, and performs `add_edge` calls.  The
models below are the pure cores: account fetches become parameters (the
already-fetched reserve amounts, pool-state scalars, or account owner),
and the result is the list of `add_edge(from, to, edge)` calls the
function performs for one pool.  An RPC failure produces no calls, the
same as the `[]` arms below. -/

/-- PriceGraph::get_amm_price (src/engine/graph.rs, lines 175-188), on
already-fetched vault amounts: `Err` when the SOL reserve is zero. -/
def get_amm_price (token_amount sol_amount : ℕ) : Option ℚ :=
  if sol_amount = 0 then none
  else some ((token_amount : ℚ) / (sol_amount : ℚ))

/-- PriceGraph::estimate_amm_liquidity (src/engine/graph.rs, lines
268-272) on already-fetched balances. -/
def estimate_amm_liquidity (token_amount sol_amount : ℕ) (price : ℚ) : ℚ :=
  (token_amount : ℚ) * price * 200 + (sol_amount : ℚ) * 200

/-- PriceGraph::calculate_clmm_price (src/engine/graph.rs, lines
190-194): `(sqrt_price_x64 / 2^64)^2`. -/
def calculate_clmm_price (sqrt_price_x64 : ℕ) : ℚ :=
  let sqrt_price : ℚ := (sqrt_price_x64 : ℚ) / 2 ^ 64
  sqrt_price * sqrt_price

/-- PriceGraph::estimate_clmm_liquidity (src/engine/graph.rs, lines
196-199). -/
def estimate_clmm_liquidity (liquidity sqrt_price_x64 : ℕ) : ℚ :=
  (liquidity : ℚ) * calculate_clmm_price sqrt_price_x64 / 10 ^ 9 * 200

/-- process_raydium_pools (src/engine/graph.rs, lines 40-70), one pool:
forward TOKEN→SOL edge and inverse SOL→TOKEN edge, fee 25 bps. -/
def process_raydium_pools (mint sol_mint token_program pool : Pubkey)
    (token_amount sol_amount : ℕ) : List (Pubkey × Pubkey × PoolEdge) :=
  match get_amm_price token_amount sol_amount with
  | none => []
  | some price =>
    let liquidity_usd := (sol_amount : ℚ) * 200 + (token_amount : ℚ) * price * 200
    [(mint, sol_mint,
       ⟨pool, .raydiumV4, price, liquidity_usd, 25, 25, token_program⟩),
     (sol_mint, mint,
       ⟨pool, .raydiumV4, 1 / price, liquidity_usd, 25, 25, token_program⟩)]

/-- process_raydium_cp_pools (src/engine/graph.rs, lines 211-238), one
pool: fee 5 bps. -/
def process_raydium_cp_pools (mint sol_mint token_program pool : Pubkey)
    (token_amount sol_amount : ℕ) : List (Pubkey × Pubkey × PoolEdge) :=
  match get_amm_price token_amount sol_amount with
  | none => []
  | some price =>
    let liquidity_usd := estimate_amm_liquidity token_amount sol_amount price
    [(mint, sol_mint,
       ⟨pool, .raydiumCp, price, liquidity_usd, 5, 5, token_program⟩),
     (sol_mint, mint,
       ⟨pool, .raydiumCp, 1 / price, liquidity_usd, 5, 5, token_program⟩)]

/-- process_pump_pools (src/engine/graph.rs, lines 240-266), one pool:
fee 100 bps. -/
def process_pump_pools (mint sol_mint token_program pool : Pubkey)
    (token_amount sol_amount : ℕ) : List (Pubkey × Pubkey × PoolEdge) :=
  match get_amm_price token_amount sol_amount with
  | none => []
  | some price =>
    let liquidity_usd := estimate_amm_liquidity token_amount sol_amount price
    [(mint, sol_mint,
       ⟨pool, .pump, price, liquidity_usd, 100, 100, token_program⟩),
     (sol_mint, mint,
       ⟨pool, .pump, 1 / price, liquidity_usd, 100, 100, token_program⟩)]

/-- process_meteora_damm_pools (src/engine/graph.rs, lines 347-380),
one pool: guarded by `sol_balance > 0`, fee 10 bps. -/
def process_meteora_damm_pools (token_mint sol_mint token_program pool : Pubkey)
    (token_x_balance sol_balance : ℕ) : List (Pubkey × Pubkey × PoolEdge) :=
  if 0 < sol_balance then
    let price : ℚ := (token_x_balance : ℚ) / (sol_balance : ℚ)
    let liquidity_usd := (token_x_balance : ℚ) * price * 200 + (sol_balance : ℚ) * 200
    [(token_mint, sol_mint,
       ⟨pool, .meteoraDamm, price, liquidity_usd, 10, 10, token_program⟩),
     (sol_mint, token_mint,
       ⟨pool, .meteoraDamm, 1 / price, liquidity_usd, 10, 10, token_program⟩)]
  else []

/-- process_meteora_damm_v2_pools (src/engine/graph.rs, lines 382-415),
one pool: fee 8 bps. -/
def process_meteora_damm_v2_pools (token_mint sol_mint token_program pool : Pubkey)
    (token_x_balance sol_balance : ℕ) : List (Pubkey × Pubkey × PoolEdge) :=
  if 0 < sol_balance then
    let price : ℚ := (token_x_balance : ℚ) / (sol_balance : ℚ)
    let liquidity_usd := (token_x_balance : ℚ) * price * 200 + (sol_balance : ℚ) * 200
    [(token_mint, sol_mint,
       ⟨pool, .meteoraDammV2, price, liquidity_usd, 8, 8, token_program⟩),
     (sol_mint, token_mint,
       ⟨pool, .meteoraDammV2, 1 / price, liquidity_usd, 8, 8, token_program⟩)]
  else []

/-- process_vertigo_pools (src/engine/graph.rs, lines 417-449), one
pool: fee 15 bps. -/
def process_vertigo_pools (token_mint sol_mint token_program pool : Pubkey)
    (token_x_balance sol_balance : ℕ) : List (Pubkey × Pubkey × PoolEdge) :=
  if 0 < sol_balance then
    let price : ℚ := (token_x_balance : ℚ) / (sol_balance : ℚ)
    let liquidity_usd := (token_x_balance : ℚ) * price * 200 + (sol_balance : ℚ) * 200
    [(token_mint, sol_mint,
       ⟨pool, .vertigo, price, liquidity_usd, 15, 15, token_program⟩),
     (sol_mint, token_mint,
       ⟨pool, .vertigo, 1 / price, liquidity_usd, 15, 15, token_program⟩)]
  else []

/-- process_heaven_pools (src/engine/graph.rs, lines 451-490), one
pool: direct `reserve_a / reserve_b` price, guarded by
`reserve_b > 0`, fee 20 bps, edges between `token_mint` and the pool's
`base_mint`. -/
def process_heaven_pools (token_mint base_mint token_program pool : Pubkey)
    (reserve_a reserve_b : ℕ) : List (Pubkey × Pubkey × PoolEdge) :=
  if 0 < reserve_b then
    let price : ℚ := (reserve_a : ℚ) / (reserve_b : ℚ)
    let liquidity_usd := (reserve_a : ℚ) * price * 200 + (reserve_b : ℚ) * 200
    [(token_mint, base_mint,
       ⟨pool, .heaven, price, liquidity_usd, 20, 20, token_program⟩),
     (base_mint, token_mint,
       ⟨pool, .heaven, 1 / price, liquidity_usd, 20, 20, token_program⟩)]
  else []

/-- process_futarchy_pools (src/engine/graph.rs, lines 492-525), one
pool: fee 25 bps, the edge's pool account is the pool's `dao`. -/
def process_futarchy_pools (token_mint sol_mint token_program dao : Pubkey)
    (token_x_balance sol_balance : ℕ) : List (Pubkey × Pubkey × PoolEdge) :=
  if 0 < sol_balance then
    let price : ℚ := (token_x_balance : ℚ) / (sol_balance : ℚ)
    let liquidity_usd := (token_x_balance : ℚ) * price * 200 + (sol_balance : ℚ) * 200
    [(token_mint, sol_mint,
       ⟨dao, .futarchy, price, liquidity_usd, 25, 25, token_program⟩),
     (sol_mint, token_mint,
       ⟨dao, .futarchy, 1 / price, liquidity_usd, 25, 25, token_program⟩)]
  else []

/-- process_humidifi_pools (src/engine/graph.rs, lines 527-560), one
pool: fee 12 bps. -/
def process_humidifi_pools (token_mint sol_mint token_program pool : Pubkey)
    (token_x_balance sol_balance : ℕ) : List (Pubkey × Pubkey × PoolEdge) :=
  if 0 < sol_balance then
    let price : ℚ := (token_x_balance : ℚ) / (sol_balance : ℚ)
    let liquidity_usd := (token_x_balance : ℚ) * price * 200 + (sol_balance : ℚ) * 200
    [(token_mint, sol_mint,
       ⟨pool, .humidifi, price, liquidity_usd, 12, 12, token_program⟩),
     (sol_mint, token_mint,
       ⟨pool, .humidifi, 1 / price, liquidity_usd, 12, 12, token_program⟩)]
  else []

/-- process_raydium_clmm_pools (src/engine/graph.rs, lines 72-124), one
pool: CLMM price from the decoded pool state, fee 5 bps, direction
chosen by comparing `token_mint` with the state's `token_mint_0`. -/
def process_raydium_clmm_pools (token_mint mint0 mint1 token_program pool : Pubkey)
    (sqrt_price_x64 liquidity : ℕ) : List (Pubkey × Pubkey × PoolEdge) :=
  let price := calculate_clmm_price sqrt_price_x64
  let liquidity_usd := estimate_clmm_liquidity liquidity sqrt_price_x64
  if token_mint = mint0 then
    [(token_mint, mint1,
       ⟨pool, .raydiumClmm, price, liquidity_usd, 5, 5, token_program⟩),
     (mint1, token_mint,
       ⟨pool, .raydiumClmm, 1 / price, liquidity_usd, 5, 5, token_program⟩)]
  else
    [(token_mint, mint0,
       ⟨pool, .raydiumClmm, 1 / price, liquidity_usd, 5, 5, token_program⟩),
     (mint0, token_mint,
       ⟨pool, .raydiumClmm, price, liquidity_usd, 5, 5, token_program⟩)]

/-- process_whirlpool_pools (src/engine/graph.rs, lines 126-173), one
pool: fee 2 bps, liquidity scaled by `200 / 1e9`. -/
def process_whirlpool_pools (token_mint mint_a mint_b token_program pool : Pubkey)
    (sqrt_price liquidity : ℕ) : List (Pubkey × Pubkey × PoolEdge) :=
  let price := calculate_clmm_price sqrt_price
  let liquidity_usd := (liquidity : ℚ) * 200 / 10 ^ 9
  if token_mint = mint_a then
    [(token_mint, mint_b,
       ⟨pool, .whirlpool, price, liquidity_usd, 2, 2, token_program⟩),
     (mint_b, token_mint,
       ⟨pool, .whirlpool, 1 / price, liquidity_usd, 2, 2, token_program⟩)]
  else
    [(token_mint, mint_a,
       ⟨pool, .whirlpool, 1 / price, liquidity_usd, 2, 2, token_program⟩),
     (mint_a, token_mint,
       ⟨pool, .whirlpool, price, liquidity_usd, 2, 2, token_program⟩)]

/-- process_dlmm_pools (src/engine/graph.rs, lines 280-345), one pair:
bin price `(1 + bin_step/10000)^active_id`, fee 5 bps. -/
def process_dlmm_pools (token_mint mint_x mint_y token_program pair : Pubkey)
    (bin_step : ℕ) (active_id : ℤ) : List (Pubkey × Pubkey × PoolEdge) :=
  let price : ℚ := (1 + (bin_step : ℚ) / 10000) ^ active_id
  let liquidity_usd : ℚ := (active_id.natAbs : ℚ) * 1000
  if token_mint = mint_x then
    [(mint_x, mint_y,
       ⟨pair, .meteoraDlmm, price, liquidity_usd, 5, 5, token_program⟩),
     (mint_y, mint_x,
       ⟨pair, .meteoraDlmm, 1 / price, liquidity_usd, 5, 5, token_program⟩)]
  else
    [(mint_y, mint_x,
       ⟨pair, .meteoraDlmm, 1 / price, liquidity_usd, 5, 5, token_program⟩),
     (mint_x, mint_y,
       ⟨pair, .meteoraDlmm, price, liquidity_usd, 5, 5, token_program⟩)]

/-- process_pancakeswap_pools (src/engine/graph.rs, lines 562-623), one
pool: skipped unless the fetched account's owner is the PancakeSwap
program; otherwise the CLMM logic with fee 5 bps. -/
def process_pancakeswap_pools (token_mint mint0 mint1 token_program pool : Pubkey)
    (owner pancakeswap_program : Pubkey) (sqrt_price_x64 liquidity : ℕ) :
    List (Pubkey × Pubkey × PoolEdge) :=
  if owner ≠ pancakeswap_program then []
  else
    let price := calculate_clmm_price sqrt_price_x64
    let liquidity_usd := estimate_clmm_liquidity liquidity sqrt_price_x64
    if token_mint = mint0 then
      [(token_mint, mint1,
         ⟨pool, .pancakeSwap, price, liquidity_usd, 5, 5, token_program⟩),
       (mint1, token_mint,
         ⟨pool, .pancakeSwap, 1 / price, liquidity_usd, 5, 5, token_program⟩)]
    else
      [(token_mint, mint0,
         ⟨pool, .pancakeSwap, 1 / price, liquidity_usd, 5, 5, token_program⟩),
       (mint0, token_mint,
         ⟨pool, .pancakeSwap, price, liquidity_usd, 5, 5, token_program⟩)]

/-- process_byreal_pools (src/engine/graph.rs, lines 625-686), one
pool: same shape as PancakeSwap with the Byreal program check. -/
def process_byreal_pools (token_mint mint0 mint1 token_program pool : Pubkey)
    (owner byreal_program : Pubkey) (sqrt_price_x64 liquidity : ℕ) :
    List (Pubkey × Pubkey × PoolEdge) :=
  if owner ≠ byreal_program then []
  else
    let price := calculate_clmm_price sqrt_price_x64
    let liquidity_usd := estimate_clmm_liquidity liquidity sqrt_price_x64
    if token_mint = mint0 then
      [(token_mint, mint1,
         ⟨pool, .byreal, price, liquidity_usd, 5, 5, token_program⟩),
       (mint1, token_mint,
         ⟨pool, .byreal, 1 / price, liquidity_usd, 5, 5, token_program⟩)]
    else
      [(token_mint, mint0,
         ⟨pool, .byreal, 1 / price, liquidity_usd, 5, 5, token_program⟩),
       (mint0, token_mint,
         ⟨pool, .byreal, price, liquidity_usd, 5, 5, token_program⟩)]

/-! ## Discovery engine (src/discovery/engine.rs)

The HTTP feeds, the RPC account fetch and base58 parsing are opaque
capabilities; they enter the model as function-valued parameters.  Pool
and token addresses stay base58 strings, as in the source (ownership is
compared on `owner.to_string()`).  `FuturesUnordered` completion order
and `HashSet` iteration order are unspecified in Rust; the model fixes
the harvest order, which is irrelevant to the membership properties
proved below. -/

/-- Executable model of Rust `str::replace`: replace every
non-overlapping occurrence of `pat`, scanning left to right.  The fuel
is the string length plus one, enough for every step to consume at
least one character when `pat` is non-empty (the only pattern used here
is `"solana_"`). -/
def replaceChars (pat rep : List Char) : ℕ → List Char → List Char
  | _, [] => []
  | 0, s => s
  | fuel + 1, c :: s =>
    if pat.isPrefixOf (c :: s) then
      rep ++ replaceChars pat rep fuel ((c :: s).drop pat.length)
    else
      c :: replaceChars pat rep fuel s

/-- Rust `s.replace(pat, rep)` over `String`. -/
def rustReplace (s pat rep : String) : String :=
  ⟨replaceChars pat.data rep.data (s.data.length + 1) s.data⟩

def SOL_MINT : String := "So11111111111111111111111111111111111111112"
def USDC_MINT : String := "EPjFWdd5AufqSSqeM2qN1xzybapC8G4wEGGkZwyTDt1v"
def USDT_MINT : String := "Es9vMFrzaCERmJfrF4H2FYD4KCoNkY11McCe8BenwNYB"

def RAYDIUM_V4_PROGRAM : String := "675kPX9MHTjS2zt1qfr1NYHuzeLXfQM9H24wFSUt1Mp8"
def RAYDIUM_CLMM_PROGRAM : String := "CAMMCzo5YL8w4VFF8KVHrK22GGUsp5VTaW7grrKgrWqK"
def RAYDIUM_CP_PROGRAM : String := "CPMMoo8L3F4NbTegBCKVNunggL7H1ZpdTHKxQB5qKP1C"
def METEORA_DLMM_PROGRAM : String := "LBUZKhRxPF3XUpBCjp4YzTKgLccjZhTSDM9YuVaPwxo"
def METEORA_DAMM_PROGRAM : String := "Eo7WjKq67rjJQSZxS6z3YkapzY3eMj6Xy8X5EQVn5UaB"
def ORCA_WHIRLPOOL_PROGRAM : String := "whirLbMiicVdio4qvUfM5KAg6Ct8VwpYzGff3uctyCc"
def PUMP_PROGRAM : String := "pAMMBay6oceH9fJKBRHGP5D4bD4sWpmSwMn52FMfXEA"

/-- The 7 whitelisted AMM program identifiers (src/discovery/engine.rs,
lines 23-29). -/
def whitelistPrograms : List String :=
  [RAYDIUM_V4_PROGRAM, RAYDIUM_CLMM_PROGRAM, RAYDIUM_CP_PROGRAM,
   METEORA_DLMM_PROGRAM, METEORA_DAMM_PROGRAM, ORCA_WHIRLPOOL_PROGRAM,
   PUMP_PROGRAM]

/-- `ignored_mints` (src/discovery/engine.rs, line 196). -/
def ignoredMints : List String := [SOL_MINT, USDC_MINT, USDT_MINT]

/-- identify_specific_dex_type (src/discovery/engine.rs, lines
117-130). -/
def identify_specific_dex_type (owner : String) : Option (String × String) :=
  if owner = RAYDIUM_V4_PROGRAM then some ("raydium-v4", RAYDIUM_V4_PROGRAM)
  else if owner = RAYDIUM_CLMM_PROGRAM then some ("raydium-clmm", RAYDIUM_CLMM_PROGRAM)
  else if owner = RAYDIUM_CP_PROGRAM then some ("raydium-cp", RAYDIUM_CP_PROGRAM)
  else if owner = METEORA_DLMM_PROGRAM then some ("meteora-dlmm", METEORA_DLMM_PROGRAM)
  else if owner = METEORA_DAMM_PROGRAM then some ("meteora-damm-v2", METEORA_DAMM_PROGRAM)
  else if owner = ORCA_WHIRLPOOL_PROGRAM then some ("orca-whirlpool", ORCA_WHIRLPOOL_PROGRAM)
  else if owner = PUMP_PROGRAM then some ("pump", PUMP_PROGRAM)
  else none

/-- Pool-discovery configuration fields read by the pure pipeline
(src/discovery/types.rs DiscoveryConfig; `enabled`, `interval_minutes`
and `output_file` only drive scheduling and persistence). -/
structure DiscoveryConfig where
  min_liquidity_usd : ℚ
  min_volume_h24 : ℚ

/-- `baseToken` / `quoteToken` record of a feed pair. -/
structure TokenInfo where
  address : String
  name : Option String
  symbol : Option String
deriving DecidableEq

/-- DexscreenerPair (src/discovery/engine.rs, lines 83-97);
`liquidity_usd` and `volume_h24` flatten the nested
`Option<Struct { Option<f64> }>` through the source's `and_then`. -/
structure DexscreenerPair where
  pair_address : String
  dex_id : String
  liquidity_usd : Option ℚ
  volume_h24 : Option ℚ
  base_token : Option TokenInfo
  quote_token : Option TokenInfo
deriving DecidableEq

/-- DiscoveredPool (src/discovery/types.rs). -/
structure DiscoveredPool where
  pool_address : String
  dex_type : String
  program_id : String
  liquidity_usd : ℚ
  volume_h24 : ℚ
  sol_side : String
deriving DecidableEq

/-- DiscoveredToken (src/discovery/types.rs). -/
structure DiscoveredToken where
  token_address : String
  token_name : String
  token_symbol : String
  total_liquidity : ℚ
  pools : List DiscoveredPool
deriving DecidableEq

/-- DiscoveredPools (src/discovery/types.rs). -/
structure DiscoveredPools where
  timestamp : ℕ
  token_count : ℕ
  tokens : List DiscoveredToken
deriving DecidableEq

/-- Opaque on-chain capabilities used by verify_pool_on_chain:
whether `Pubkey::from_str` succeeds on an address, and the owner
program (as a base58 string) of a successfully fetched account. -/
structure ChainView where
  parse_ok : String → Bool
  owner : String → Option String

/-- verify_pool_on_chain (src/discovery/engine.rs, lines 133-150): an
unparseable address is a propagated error, a failed fetch yields
`Ok(None)`, and otherwise the owner is classified. -/
def verify_pool_on_chain (chain : ChainView) (pool_address : String) :
    Except Unit (Option (String × String)) :=
  if chain.parse_ok pool_address = false then .error ()
  else
    match chain.owner pool_address with
    | none => .ok none
    | some o => .ok (identify_specific_dex_type o)

/-- The pair loop of process_token (src/discovery/engine.rs, lines
348-388), threading the verified pools and the name/symbol cells. -/
def processPairs (chain : ChainView) (config : DiscoveryConfig) :
    List DexscreenerPair → List DiscoveredPool × String × String →
    Except Unit (List DiscoveredPool × String × String)
  | [], st => .ok st
  | pair :: rest, (pools, token_name, token_symbol) =>
    match pair.base_token, pair.quote_token with
    | some base, some quote =>
      let sideInfo : Option (String × String × String) :=
        if base.address = SOL_MINT then
          some ("base", base.name.getD "", base.symbol.getD "UNK")
        else if quote.address = SOL_MINT then
          some ("quote", base.name.getD "", base.symbol.getD "UNK")
        else none
      match sideInfo with
      | none => processPairs chain config rest (pools, token_name, token_symbol)
      | some (sol_side, name', symbol') =>
        match verify_pool_on_chain chain pair.pair_address with
        | .error e => .error e
        | .ok none => processPairs chain config rest (pools, name', symbol')
        | .ok (some (dex_type, program_id)) =>
          let liq := pair.liquidity_usd.getD 0
          let vol := pair.volume_h24.getD 0
          if config.min_liquidity_usd ≤ liq ∧ config.min_volume_h24 ≤ vol then
            processPairs chain config rest
              (pools ++ [⟨pair.pair_address, dex_type, program_id, liq, vol, sol_side⟩],
               name', symbol')
          else processPairs chain config rest (pools, name', symbol')
    | _, _ => processPairs chain config rest (pools, token_name, token_symbol)

/-- process_token (src/discovery/engine.rs, lines 319-407); `fetched`
is the parsed pair-detail response, `none` when the HTTP fetch or JSON
parse failed. -/
def process_token (chain : ChainView) (config : DiscoveryConfig)
    (token_addr : String) (fetched : Option (List DexscreenerPair)) :
    Except Unit (Option DiscoveredToken) :=
  match fetched with
  | none => .ok none
  | some pairs =>
    match processPairs chain config pairs ([], "Unknown", "UNK") with
    | .error e => .error e
    | .ok (verified_pools, token_name, token_symbol) =>
      if verified_pools.length < 2 then .ok none
      else
        let sorted := verified_pools.insertionSort
          (fun a b => b.liquidity_usd ≤ a.liquidity_usd)
        let total_liq := (sorted.map (fun p => p.liquidity_usd)).sum
        .ok (some ⟨token_addr, token_name, token_symbol, total_liq, sorted⟩)

/-- run_discovery (src/discovery/engine.rs, lines 180-258), pure core:
harvest both feeds, extract and denylist-filter base tokens, resolve
each token, keep groups with at least two verified pools, and sort by
total liquidity. -/
def run_discovery (chain : ChainView) (config : DiscoveryConfig)
    (trending_ids top_ids : List (Option String))
    (dexscreener : String → Option (List DexscreenerPair)) (now : ℕ) :
    DiscoveredPools :=
  let initial_pools : List (Option String) := trending_ids ++ top_ids
  let stripped : List String := initial_pools.filterMap
    (fun rel => Option.map (fun id => rustReplace id "solana_" "") rel)
  let discovered_tokens : List String :=
    (stripped.filter (fun addr => decide (addr ∉ ignoredMints))).dedup
  let all_results : List DiscoveredToken := discovered_tokens.filterMap (fun token_addr =>
    match process_token chain config token_addr (dexscreener token_addr) with
    | .error _ => none
    | .ok none => none
    | .ok (some token_group) =>
      if 2 ≤ token_group.pools.length then some token_group else none)
  let sorted := all_results.insertionSort
    (fun a b => b.total_liquidity ≤ a.total_liquidity)
  { timestamp := now, token_count := all_results.length, tokens := sorted }

/-! ## Theorems -/

lemma edgesOf_cons (k : Pubkey) (es : List PoolEdge) (rest : PriceGraph) (m : Pubkey) :
    edgesOf ((k, es) :: rest) m = if k = m then es else edgesOf rest m := by
  by_cases h : k = m <;> simp [edgesOf, List.find?_cons, h]

lemma edgesOf_addEdge (g : PriceGraph) (f t : Pubkey) (e : PoolEdge) (m : Pubkey) :
    edgesOf (addEdge g f t e) m =
      if f = m then edgesOf g m ++ [e] else edgesOf g m := by
  induction g with
  | nil =>
    by_cases h : f = m <;> simp [addEdge, edgesOf, List.find?_cons, h]
  | cons kv rest ih =>
    obtain ⟨k, es⟩ := kv
    by_cases hkf : k = f
    · subst hkf
      by_cases hkm : k = m <;> simp [addEdge, edgesOf_cons, hkm]
    · by_cases hkm : k = m
      · have hfm : f ≠ m := fun hfm' => hkf (hkm.trans hfm'.symm)
        have hmf : m ≠ f := fun h => hfm h.symm
        subst hkm
        simp [addEdge, hmf, hfm, edgesOf_cons]
      · simp [addEdge, hkf, edgesOf_cons, hkm, ih]

/-- C2 (counterexample): with `e1` installed under mint `0` on the
first tick and `e2` on the second, `e1` is still present after the
second tick — the previous tick's edge is not removed, so the bucket is
not "exactly the edges produced by that tick". -/
theorem claim2_edges_accumulate_counterexample :
    let e1 : PoolEdge := ⟨7, .raydiumV4, 1 / 2, 1000, 25, 25, 9⟩
    let e2 : PoolEdge := ⟨8, .pump, 2, 500, 100, 100, 9⟩
    let g1 := applyTick [] [(0, 1, e1)]
    let g2 := applyTick g1 [(0, 1, e2)]
    edgesOf g2 0 = [e1, e2] ∧ [e1, e2] ≠ [e2] := by
  decide

/-- C2 (amended): a tick only appends.  after an ingestion tick the
bucket of every source mint is the previous bucket followed by the
edges the tick adds for that mint; nothing is removed, so edges
accumulate across ticks. -/
theorem claim2_applyTick_appends (adds : List (Pubkey × Pubkey × PoolEdge)) :
    ∀ (g : PriceGraph) (m : Pubkey),
      edgesOf (applyTick g adds) m =
        edgesOf g m ++
          ((adds.filter (fun a => a.1 = m)).map (fun a => a.2.2)) := by
  induction adds with
  | nil => intro g m; simp [applyTick]
  | cons a rest ih =>
    intro g m
    have step : applyTick g (a :: rest) = applyTick (addEdge g a.1 a.2.1 a.2.2) rest := by
      simp [applyTick]
    rw [step, ih, edgesOf_addEdge]
    by_cases h : a.1 = m <;> simp [h, List.filter_cons]

/-- C3: the token-vault reserve extraction.  For a buffer shorter than
64 bytes it returns zero, and for a buffer of at least 72 bytes it
returns the little-endian word at offset 64; but for the 64-byte buffer
(and any length in `[64, 72)`) the slice `data[64..72]` panics instead
of returning zero, contradicting the claim. -/
theorem claim3_parse_token_amount_panics :
    parse_token_amount (List.replicate 64 (0 : Fin 256)) = Outcome.crash ∧
    parse_token_amount (List.replicate 71 (0 : Fin 256)) = Outcome.crash ∧
    parse_token_amount (List.replicate 63 (0 : Fin 256)) = Outcome.ok 0 ∧
    parse_token_amount
      (List.replicate 64 (0 : Fin 256) ++
        [(1 : Fin 256), 0, 0, 0, 0, 0, 0, (2 : Fin 256)]) =
      Outcome.ok (1 + 2 * 256 ^ 7) := by
  decide

set_option maxRecDepth 4000 in
/-- C4: SolfiInfo::load_checked and MeteoraDAmmV2Info::load_checked
panic on buffers shorter than their last required offset + 32 (2800 and
296 bytes respectively) instead of returning a malformed-layout error;
only RaydiumAmmInfo::load_checked checks its length (464 bytes) and
errs.  On sufficiently long buffers all three return a typed record. -/
theorem claim4_decoders_panic :
    SolfiInfo.load_checked [] = Outcome.crash ∧
    SolfiInfo.load_checked (List.replicate 2799 (0 : Fin 256)) = Outcome.crash ∧
    SolfiInfo.load_checked (List.replicate 2800 (0 : Fin 256)) =
      Outcome.ok ⟨List.replicate 32 0, List.replicate 32 0,
                  List.replicate 32 0, List.replicate 32 0⟩ ∧
    MeteoraDAmmV2Info.load_checked [] = Outcome.crash ∧
    MeteoraDAmmV2Info.load_checked (List.replicate 295 (0 : Fin 256)) = Outcome.crash ∧
    MeteoraDAmmV2Info.load_checked (List.replicate 296 (0 : Fin 256)) =
      Outcome.ok ⟨List.replicate 32 0, List.replicate 32 0,
                  List.replicate 32 0, List.replicate 32 0⟩ ∧
    RaydiumAmmInfo.load_checked [] = Outcome.err ∧
    RaydiumAmmInfo.load_checked (List.replicate 463 (0 : Fin 256)) = Outcome.err ∧
    RaydiumAmmInfo.load_checked (List.replicate 464 (0 : Fin 256)) =
      Outcome.ok ⟨List.replicate 32 0, List.replicate 32 0,
                  List.replicate 32 0, List.replicate 32 0⟩ := by
  refine ⟨?_, ?_, ?_, ?_, ?_, ?_, ?_, ?_, ?_⟩ <;>
    norm_num [SolfiInfo.load_checked, MeteoraDAmmV2Info.load_checked,
      RaydiumAmmInfo.load_checked, slice_to_pubkey, sliceBytes, Outcome.bind,
      List.drop_replicate, List.take_replicate]

lemma mapGet_cons {α : Type} (k' : Pubkey) (v' : α) (rest : List (Pubkey × α)) (k : Pubkey) :
    mapGet ((k', v') :: rest) k = if k' = k then some v' else mapGet rest k := by
  by_cases h : k' = k <;> simp [mapGet, List.find?_cons, h]

lemma mapGet_mapInsert_self {α : Type} (m : List (Pubkey × α)) (k : Pubkey) (v : α) :
    mapGet (mapInsert m k v) k = some v := by
  induction m with
  | nil => simp [mapInsert, mapGet, List.find?]
  | cons kv rest ih =>
    obtain ⟨k', v'⟩ := kv
    by_cases h : k' = k
    · subst h; simp [mapInsert, mapGet_cons]
    · simp [mapInsert, h, mapGet_cons, ih]

lemma mapGet_mapInsert_ne {α : Type} (m : List (Pubkey × α)) (k x : Pubkey) (v : α)
    (h : x ≠ k) : mapGet (mapInsert m k v) x = mapGet m x := by
  induction m with
  | nil =>
    have hk : k ≠ x := fun hk => h hk.symm
    simp [mapInsert, mapGet_cons, hk, mapGet]
  | cons kv rest ih =>
    obtain ⟨k', v'⟩ := kv
    by_cases hk : k' = k
    · subst hk
      have : k' ≠ x := fun hx => h hx.symm
      simp [mapInsert, mapGet_cons, this]
    · simp [mapInsert, hk, mapGet_cons, ih]

lemma relaxEdge_updated_mono (st : BFState) (u : Pubkey) (e : PoolEdge)
    (h : st.updated = true) : (relaxEdge st u e).updated = true := by
  by_cases hc : distGet st.distances u * e.price < distGet st.distances e.pool_pubkey
  · simp [relaxEdge, hc]
  · simpa [relaxEdge, hc] using h

lemma relaxEdges_updated_mono (k : Pubkey) (l : List PoolEdge) (st : BFState)
    (h : st.updated = true) :
    (l.foldl (fun s e => relaxEdge s k e) st).updated = true := by
  induction l generalizing st with
  | nil => exact h
  | cons e rest ih => exact ih _ (relaxEdge_updated_mono _ _ _ h)

lemma relaxEntries_updated_mono (g : PriceGraph) (st : BFState)
    (h : st.updated = true) :
    (g.foldl (fun st entry => entry.2.foldl (fun st e => relaxEdge st entry.1 e) st)
      st).updated = true := by
  induction g generalizing st with
  | nil => exact h
  | cons entry rest ih => exact ih _ (relaxEdges_updated_mono _ _ _ h)

lemma relaxEdges_no_update (k : Pubkey) (l : List PoolEdge) (st : BFState)
    (h : (l.foldl (fun s e => relaxEdge s k e) st).updated = false) :
    l.foldl (fun s e => relaxEdge s k e) st = st := by
  induction l generalizing st with
  | nil => rfl
  | cons e rest ih =>
    rw [List.foldl_cons] at h ⊢
    by_cases hc : distGet st.distances k * e.price < distGet st.distances e.pool_pubkey
    · have h1 : (relaxEdge st k e).updated = true := by simp [relaxEdge, hc]
      have h2 := relaxEdges_updated_mono k rest _ h1
      rw [h] at h2
      cases h2
    · have hst : relaxEdge st k e = st := by simp [relaxEdge, hc]
      rw [hst] at h ⊢
      exact ih st h

lemma relaxEntries_no_update (g : PriceGraph) (st : BFState)
    (h : (g.foldl (fun st entry => entry.2.foldl (fun st e => relaxEdge st entry.1 e) st)
      st).updated = false) :
    g.foldl (fun st entry => entry.2.foldl (fun st e => relaxEdge st entry.1 e) st) st
      = st := by
  induction g generalizing st with
  | nil => rfl
  | cons entry rest ih =>
    rw [List.foldl_cons] at h ⊢
    cases hu1 : (entry.2.foldl (fun st e => relaxEdge st entry.1 e) st).updated with
    | true =>
      have h2 := relaxEntries_updated_mono rest _ hu1
      rw [h] at h2
      cases h2
    | false =>
      rw [relaxEdges_no_update entry.1 entry.2 st hu1] at h ⊢
      exact ih st h

lemma relaxRound_no_update (g : PriceGraph) (st : BFState)
    (h : (relaxRound g st).updated = false) :
    relaxRound g st = { st with updated := false } := by
  unfold relaxRound at h ⊢
  exact relaxEntries_no_update g { st with updated := false } h

lemma relaxEdge_of_lt (st : BFState) (u : Pubkey) (e : PoolEdge)
    (hc : distGet st.distances u * e.price < distGet st.distances e.pool_pubkey) :
    relaxEdge st u e =
      { distances := mapInsert st.distances e.pool_pubkey
          (distGet st.distances u * e.price),
        predecessors := mapInsert st.predecessors e.pool_pubkey (u, e),
        updated := true } := by
  simp only [relaxEdge]
  rw [if_pos hc]

set_option maxRecDepth 8000 in
/-- C1 (counterexample): one edge installed via `add_edge 0 1 e`, whose
destination mint is `1`.  The relaxation condition of the claim holds
for this edge at the initial state (`distance[0] * e.price <
distance[1]`), yet after the full relaxation loop mint `1` has no
distance and no predecessor: the code relaxed the edge's pool account
`5` instead. -/
theorem claim1_relaxation_counterexample :
    let e : PoolEdge := ⟨5, .raydiumV4, 1 / 2, 1000, 25, 25, 9⟩
    let g := addEdge [] 0 1 e
    let st := bfLoop g 5 (bfInit 0)
    distGet (bfInit 0).distances 0 * e.price < distGet (bfInit 0).distances 1 ∧
    mapGet st.distances 1 = none ∧
    mapGet st.predecessors 1 = none ∧
    distGet st.distances 5 = 1 / 2 ∧
    mapGet st.predecessors 5 = some (0, e) := by
  decide

/-- C1 (amended): in find_negative_cycles the relaxation target is
`edge.pool_pubkey`, not a destination mint (PoolEdge stores none): for
every edge `(u, edge)`, when `distance[u] * edge.price <
distance[edge.pool_pubkey]` the relaxation updates
`distance[edge.pool_pubkey]` to the product, records
`predecessor[edge.pool_pubkey] = (u, edge)` and leaves every other key
unchanged; when the inequality fails the state is untouched; and a
round that produces no update leaves distances and predecessors
unchanged and terminates the `max_hops` loop early. -/
theorem claim1_relaxation_amended :
    (∀ (st : BFState) (u : Pubkey) (e : PoolEdge),
        distGet st.distances u * e.price < distGet st.distances e.pool_pubkey →
          (relaxEdge st u e).updated = true ∧
          distGet (relaxEdge st u e).distances e.pool_pubkey =
            distGet st.distances u * e.price ∧
          mapGet (relaxEdge st u e).predecessors e.pool_pubkey = some (u, e) ∧
          (∀ x, x ≠ e.pool_pubkey →
            distGet (relaxEdge st u e).distances x = distGet st.distances x) ∧
          (∀ x, x ≠ e.pool_pubkey →
            mapGet (relaxEdge st u e).predecessors x = mapGet st.predecessors x)) ∧
    (∀ (st : BFState) (u : Pubkey) (e : PoolEdge),
        ¬ distGet st.distances u * e.price < distGet st.distances e.pool_pubkey →
          relaxEdge st u e = st) ∧
    (∀ (g : PriceGraph) (st : BFState) (n : ℕ),
        (relaxRound g st).updated = false →
          bfLoop g (n + 1) st = relaxRound g st ∧
          (relaxRound g st).distances = st.distances ∧
          (relaxRound g st).predecessors = st.predecessors) := by
  refine ⟨?_, ?_, ?_⟩
  · intro st u e hc
    rw [relaxEdge_of_lt st u e hc]
    refine ⟨rfl, ?_, ?_, ?_, ?_⟩
    · simp [distGet, mapGet_mapInsert_self]
    · simp [mapGet_mapInsert_self]
    · intro x hx
      simp [distGet, mapGet_mapInsert_ne _ _ _ _ hx]
    · intro x hx
      simp [mapGet_mapInsert_ne _ _ _ _ hx]
  · intro st u e hc
    simp [relaxEdge, hc]
  · intro g st n h
    have hr := relaxRound_no_update g st h
    refine ⟨?_, by rw [hr], by rw [hr]⟩
    simp [bfLoop, h]

set_option maxRecDepth 8000 in
/-- Witness for the amended C1 theorem at concrete states: an edge that
relaxes (its pool account `5` gets the product and the predecessor,
mint `1` is untouched), an edge that does not, and a round with no
update that stops the loop. -/
theorem claim1_relaxation_amended_witness :
    (relaxEdge (bfInit 0) 0 ⟨5, .raydiumV4, 1 / 2, 1000, 25, 25, 9⟩).updated = true ∧
    distGet (relaxEdge (bfInit 0) 0 ⟨5, .raydiumV4, 1 / 2, 1000, 25, 25, 9⟩).distances 5
      = 1 * (1 / 2) ∧
    mapGet (relaxEdge (bfInit 0) 0 ⟨5, .raydiumV4, 1 / 2, 1000, 25, 25, 9⟩).predecessors 5
      = some (0, ⟨5, .raydiumV4, 1 / 2, 1000, 25, 25, 9⟩) ∧
    distGet (relaxEdge (bfInit 0) 0 ⟨5, .raydiumV4, 1 / 2, 1000, 25, 25, 9⟩).distances 1
      = distGet (bfInit 0).distances 1 ∧
    relaxEdge ⟨[(0, 1), (5, 1)], [], false⟩ 0 ⟨5, .raydiumV4, 2, 1000, 25, 25, 9⟩
      = ⟨[(0, 1), (5, 1)], [], false⟩ ∧
    bfLoop [(0, [⟨5, .raydiumV4, 2, 1000, 25, 25, 9⟩])] 1 ⟨[(0, 1), (5, 1)], [], false⟩
      = relaxRound [(0, [⟨5, .raydiumV4, 2, 1000, 25, 25, 9⟩])]
          ⟨[(0, 1), (5, 1)], [], false⟩ := by
  obtain ⟨h1, h2, h3⟩ := claim1_relaxation_amended
  refine ⟨?_, ?_, ?_, ?_, ?_, ?_⟩
  · exact (h1 (bfInit 0) 0 _ (by decide)).1
  · have hd := (h1 (bfInit 0) 0 ⟨5, .raydiumV4, 1 / 2, 1000, 25, 25, 9⟩ (by decide)).2.1
    simpa [bfInit, distGet, mapGet] using hd
  · exact (h1 (bfInit 0) 0 _ (by decide)).2.2.1
  · exact (h1 (bfInit 0) 0 _ (by decide)).2.2.2.1 1 (by decide)
  · exact h2 ⟨[(0, 1), (5, 1)], [], false⟩ 0 _ (by decide)
  · exact (h3 [(0, [⟨5, .raydiumV4, 2, 1000, 25, 25, 9⟩])]
      ⟨[(0, 1), (5, 1)], [], false⟩ 0 (by decide)).1

lemma foldl_step_append {α β : Type} (step : List β → α → List β) (g : α → List β)
    (h : ∀ acc x, step acc x = acc ++ g x) :
    ∀ (l : List α) (init : List β), l.foldl step init = init ++ l.flatMap g := by
  intro l
  induction l with
  | nil => intro init; simp
  | cons x rest ih =>
    intro init
    rw [List.foldl_cons, h, ih, List.flatMap_cons, List.append_assoc]

/-- The cycles the scan produces for one edge, in isolation. -/
def detectOne (st : BFState) (min_hops max_hops : ℕ) (min_profit_bps : ℤ)
    (from_mint : Pubkey) (edge : PoolEdge) : List ArbitrageCycle :=
  match mapGet st.distances from_mint with
  | none => []
  | some start_dist =>
    if start_dist * edge.price < distGet st.distances edge.pool_pubkey then
      match reconstruct_cycle st.predecessors from_mint edge.pool_pubkey
          min_hops max_hops with
      | some cycle =>
        if min_profit_bps < cycle.total_profit_bps then [cycle] else []
      | none => []
    else []

lemma detectScan_eq_flatMap (g : PriceGraph) (st : BFState) (mn mx : ℕ) (mb : ℤ) :
    detectScan g st mn mx mb =
      g.flatMap (fun entry =>
        entry.2.flatMap (fun edge => detectOne st mn mx mb entry.1 edge)) := by
  unfold detectScan
  have inner : ∀ (k : Pubkey) (es : List PoolEdge) (acc : List ArbitrageCycle),
      es.foldl (fun acc edge =>
        match mapGet st.distances k with
        | none => acc
        | some start_dist =>
          if start_dist * edge.price < distGet st.distances edge.pool_pubkey then
            match reconstruct_cycle st.predecessors k edge.pool_pubkey mn mx with
            | some cycle =>
              if mb < cycle.total_profit_bps then acc ++ [cycle] else acc
            | none => acc
          else acc) acc
        = acc ++ es.flatMap (fun edge => detectOne st mn mx mb k edge) := by
    intro k es acc
    refine foldl_step_append _ _ ?_ es acc
    intro acc edge
    unfold detectOne
    rcases mapGet st.distances k with _ | sd
    · simp
    · by_cases hlt : sd * edge.price < distGet st.distances edge.pool_pubkey
      · simp only [hlt, if_true]
        rcases reconstruct_cycle st.predecessors k edge.pool_pubkey mn mx with _ | c
        · simp
        · by_cases hp : mb < c.total_profit_bps <;> simp [hp]
      · simp [hlt]
  have outer := foldl_step_append
    (fun acc entry =>
      entry.2.foldl (fun acc edge =>
        match mapGet st.distances entry.1 with
        | none => acc
        | some start_dist =>
          if start_dist * edge.price < distGet st.distances edge.pool_pubkey then
            match reconstruct_cycle st.predecessors entry.1 edge.pool_pubkey mn mx with
            | some cycle =>
              if mb < cycle.total_profit_bps then acc ++ [cycle] else acc
            | none => acc
          else acc) acc)
    (fun entry => entry.2.flatMap (fun edge => detectOne st mn mx mb entry.1 edge))
    (fun acc entry => inner entry.1 entry.2 acc) g []
  simpa using outer

lemma buildCycle_some_bounds (mn mx : ℕ) (path : List (Pubkey × PoolEdge))
    (c : ArbitrageCycle) (h : buildCycle mn mx path = some c) :
    c.total_hops = c.legs.length ∧ mn ≤ c.total_hops ∧ c.total_hops ≤ mx := by
  unfold buildCycle at h
  split at h
  · cases h
  · rename_i hbound
    push_neg at hbound
    cases h
    simp [hbound.1, hbound.2]

lemma detectOne_sub (st : BFState) (mn mx : ℕ) (mb : ℤ) (k : Pubkey)
    (edge : PoolEdge) (c : ArbitrageCycle)
    (hc : c ∈ detectOne st mn mx mb k edge) :
    reconstruct_cycle st.predecessors k edge.pool_pubkey mn mx = some c ∧
      mb < c.total_profit_bps := by
  unfold detectOne at hc
  cases h1 : mapGet st.distances k with
  | none => simp only [h1] at hc; cases hc
  | some sd =>
    simp only [h1] at hc
    by_cases h2 : sd * edge.price < distGet st.distances edge.pool_pubkey
    · rw [if_pos h2] at hc
      cases h3 : reconstruct_cycle st.predecessors k edge.pool_pubkey mn mx with
      | none => simp only [h3] at hc; cases hc
      | some c' =>
        simp only [h3] at hc
        by_cases h4 : mb < c'.total_profit_bps
        · rw [if_pos h4] at hc
          have hcc := List.mem_singleton.mp hc
          cases hcc
          exact ⟨rfl, h4⟩
        · rw [if_neg h4] at hc; cases hc
    · rw [if_neg h2] at hc; cases hc

/-- C6: every cycle returned by find_negative_cycles has `total_hops`
equal to its number of legs, with `min_hops ≤ total_hops ≤ max_hops`. -/
theorem claim6_hop_bounds (g : PriceGraph) (start : Pubkey) (mn mx : ℕ) (mb : ℤ) :
    ∀ c ∈ find_negative_cycles g start mn mx mb,
      c.total_hops = c.legs.length ∧ mn ≤ c.total_hops ∧ c.total_hops ≤ mx := by
  intro c hc
  unfold find_negative_cycles at hc
  rw [List.mem_insertionSort] at hc
  rw [detectScan_eq_flatMap] at hc
  rw [List.mem_flatMap] at hc
  obtain ⟨entry, -, hc⟩ := hc
  rw [List.mem_flatMap] at hc
  obtain ⟨edge, -, hc⟩ := hc
  obtain ⟨hrc, -⟩ := detectOne_sub _ mn mx mb entry.1 edge c hc
  unfold reconstruct_cycle at hrc
  obtain ⟨path, -, hbuild⟩ := Option.bind_eq_some.mp hrc
  exact buildCycle_some_bounds mn mx path c hbuild

set_option maxRecDepth 8000 in
/-- Witness for C6 on a concrete two-mint graph whose scan yields one
cycle (1 hop, 20000 bps). -/
theorem claim6_hop_bounds_witness :
    let gw : PriceGraph := [(0, [⟨5, .raydiumV4, 3, 1000, 25, 25, 9⟩]),
                            (5, [⟨0, .raydiumV4, 1 / 4, 1000, 25, 25, 9⟩])]
    let c : ArbitrageCycle := ⟨[⟨5, 5, 5, .raydiumV4, 0, 0⟩], 20000, 0, 1⟩
    c.total_hops = c.legs.length ∧ 1 ≤ c.total_hops ∧ c.total_hops ≤ 3 := by
  intro gw c
  exact claim6_hop_bounds gw 0 1 3 0 c (by decide)

/-- C5 (counterexample): with a negative `min_profit_bps` a two-leg
path whose price product is exactly 1 is accepted (profit_bps = 0
exceeds −10), refuting the claimed conjunct that the accumulated
product must exceed 1. -/
theorem claim5_accept_counterexample :
    let e1 : PoolEdge := ⟨5, .raydiumV4, 1, 0, 25, 25, 9⟩
    let e2 : PoolEdge := ⟨6, .raydiumV4, 1, 0, 25, 25, 9⟩
    acceptedPath 2 5 (-10) [(0, e1), (5, e2)] = true ∧
    ¬ 1 < totalPrice [(0, e1), (5, e2)] := by
  decide

lemma toI64_pos_imp (q : ℚ) (h : 0 < toI64 q) : 0 < q := by
  unfold toI64 at h
  have h1 : 0 < min ((2 : ℤ) ^ 63 - 1) (q.num.tdiv q.den) := by
    rcases max_cases (-(2 : ℤ) ^ 63) (min ((2 : ℤ) ^ 63 - 1) (q.num.tdiv q.den)) with
      ⟨heq, hle⟩ | ⟨heq, hle⟩
    · rw [heq] at h; norm_num at h
    · rw [heq] at h; exact h
  have h2 : 0 < q.num.tdiv q.den := lt_of_lt_of_le h1 (min_le_right _ _)
  by_contra hq
  push_neg at hq
  have hnum : q.num ≤ 0 := Rat.num_nonpos.mpr hq
  have h3 : q.num.tdiv q.den = -((-q.num).tdiv q.den) := by
    rw [Int.neg_tdiv, neg_neg]
  have h4 : 0 ≤ (-q.num).tdiv q.den := Int.tdiv_nonneg (by omega) (by positivity)
  omega

lemma toI64_eq_floor_of_pos (q : ℚ) (h : 0 < q) :
    toI64 q = min ((2 : ℤ) ^ 63 - 1) ⌊q⌋ := by
  have hnum : 0 ≤ q.num := le_of_lt (Rat.num_pos.mpr h)
  have ht : q.num.tdiv q.den = ⌊q⌋ := by
    rw [Int.tdiv_eq_ediv hnum (by positivity), Rat.floor_def]
  unfold toI64
  rw [ht]
  have hfl : 0 ≤ ⌊q⌋ := Int.floor_nonneg.mpr (le_of_lt h)
  have : -(2 : ℤ) ^ 63 ≤ min ((2 : ℤ) ^ 63 - 1) ⌊q⌋ := by
    rcases min_cases ((2 : ℤ) ^ 63 - 1) ⌊q⌋ with ⟨heq, -⟩ | ⟨heq, -⟩ <;>
      rw [heq] <;> omega
  exact max_eq_right this

/-- C5 (amended): a reconstructed path is accepted iff
`min_hops ≤ length ≤ max_hops` and `profit_bps > min_profit_bps`, where
`profit_bps` is the `as i64` cast (truncation toward zero, saturating)
of `(Π price − 1) * 10_000`; the product-exceeds-1 condition is not
checked separately.  When `min_profit_bps ≥ 0`, acceptance does imply
`Π price > 1`, and then `profit_bps` equals `floor((Π price − 1) *
10_000)` saturated at the upper i64 bound. -/
theorem claim5_accept_iff (mn mx : ℕ) (mb : ℤ) (path : List (Pubkey × PoolEdge)) :
    (acceptedPath mn mx mb path = true ↔
      mn ≤ path.length ∧ path.length ≤ mx ∧
        mb < toI64 ((totalPrice path - 1) * 10000)) ∧
    (0 ≤ mb → acceptedPath mn mx mb path = true →
      1 < totalPrice path ∧
        toI64 ((totalPrice path - 1) * 10000)
          = min ((2 : ℤ) ^ 63 - 1) ⌊(totalPrice path - 1) * 10000⌋) := by
  have hmain : acceptedPath mn mx mb path = true ↔
      mn ≤ path.length ∧ path.length ≤ mx ∧
        mb < toI64 ((totalPrice path - 1) * 10000) := by
    by_cases hb : path.length < mn ∨ mx < path.length
    · simp only [acceptedPath, buildCycle, if_pos hb]
      constructor
      · intro h; cases h
      · rintro ⟨hmn, hmx, -⟩; omega
    · have hb' := hb
      push_neg at hb'
      simp only [acceptedPath, buildCycle, if_neg hb, decide_eq_true_eq]
      exact ⟨fun h => ⟨hb'.1, hb'.2, h⟩, fun h => h.2.2⟩
  refine ⟨hmain, fun hmb hacc => ?_⟩
  have hlt := (hmain.mp hacc).2.2
  have hpos : 0 < toI64 ((totalPrice path - 1) * 10000) := lt_of_le_of_lt hmb hlt
  have hq : 0 < (totalPrice path - 1) * 10000 := toI64_pos_imp _ hpos
  have h1 : 1 < totalPrice path := by nlinarith
  exact ⟨h1, toI64_eq_floor_of_pos _ hq⟩

/-- Witness for C5 at a concrete accepted two-leg path whose price
product is 2 (profit 10000 bps) with thresholds `2 ≤ len ≤ 5`,
`min_profit_bps = 0`. -/
theorem claim5_accept_iff_witness :
    let p : List (Pubkey × PoolEdge) :=
      [(0, ⟨5, .raydiumV4, 2, 0, 25, 25, 9⟩), (5, ⟨6, .raydiumV4, 1, 0, 25, 25, 9⟩)]
    (acceptedPath 2 5 0 p = true ↔
      2 ≤ p.length ∧ p.length ≤ 5 ∧ 0 < toI64 ((totalPrice p - 1) * 10000)) ∧
    (1 < totalPrice p ∧
      toI64 ((totalPrice p - 1) * 10000)
        = min ((2 : ℤ) ^ 63 - 1) ⌊(totalPrice p - 1) * 10000⌋) := by
  intro p
  obtain ⟨w1, w2⟩ := claim5_accept_iff 2 5 0 p
  exact ⟨w1, w2 (by decide) (by decide)⟩

lemma mul_one_div_self_le_one (q : ℚ) : q * (1 / q) ≤ 1 := by
  rcases eq_or_ne q 0 with h | h
  · simp [h]
  · rw [mul_one_div, div_self h]

lemma div_mul_div_cancel_le_one (a b : ℚ) : a / b * (b / a) ≤ 1 := by
  rcases eq_or_ne a 0 with ha | ha
  · simp [ha]
  · rcases eq_or_ne b 0 with hb | hb
    · simp [hb]
    · have h : a / b * (b / a) = 1 := by
        field_simp
      exact le_of_eq h

/-- Shape of the `add_edge` calls a constant-product installer makes
for one pool: either nothing, or a forward edge `(u, v, ef)` followed
by an inverse edge `(v, u, ei)` over the same pool account and dex
type, with `ei.price = 1 / ef.price` and price product at most 1. -/
def cpPairAdds : List (Pubkey × Pubkey × PoolEdge) → Prop
  | [] => True
  | [(u, v, ef), (v', u', ei)] =>
    v' = v ∧ u' = u ∧ ei.pool_pubkey = ef.pool_pubkey ∧
    ei.dex_type = ef.dex_type ∧ ei.price = 1 / ef.price ∧
    ef.price * ei.price ≤ 1
  | _ => False

/-- C8: every constant-product installer emits edges in
forward/inverse pairs on the same pool account whose prices are exact
reciprocals, hence multiply to at most 1 (exactly 1 whenever the
forward price is nonzero). -/
theorem claim8_cp_bidirectional :
    (∀ mint sol tp pool t s, cpPairAdds (process_raydium_pools mint sol tp pool t s)) ∧
    (∀ mint sol tp pool t s, cpPairAdds (process_raydium_cp_pools mint sol tp pool t s)) ∧
    (∀ mint sol tp pool t s, cpPairAdds (process_pump_pools mint sol tp pool t s)) ∧
    (∀ mint sol tp pool t s, cpPairAdds (process_meteora_damm_pools mint sol tp pool t s)) ∧
    (∀ mint sol tp pool t s, cpPairAdds (process_meteora_damm_v2_pools mint sol tp pool t s)) ∧
    (∀ mint sol tp pool t s, cpPairAdds (process_vertigo_pools mint sol tp pool t s)) ∧
    (∀ mint base tp pool ra rb, cpPairAdds (process_heaven_pools mint base tp pool ra rb)) ∧
    (∀ mint sol tp dao t s, cpPairAdds (process_futarchy_pools mint sol tp dao t s)) ∧
    (∀ mint sol tp pool t s, cpPairAdds (process_humidifi_pools mint sol tp pool t s)) := by
  refine ⟨?_, ?_, ?_, ?_, ?_, ?_, ?_, ?_, ?_⟩ <;> intro mint sol tp pool t s
  · by_cases hs : s = 0 <;>
      simp [process_raydium_pools, get_amm_price, hs, cpPairAdds,
        mul_one_div_self_le_one, div_mul_div_cancel_le_one]
  · by_cases hs : s = 0 <;>
      simp [process_raydium_cp_pools, get_amm_price, hs, cpPairAdds,
        mul_one_div_self_le_one, div_mul_div_cancel_le_one]
  · by_cases hs : s = 0 <;>
      simp [process_pump_pools, get_amm_price, hs, cpPairAdds,
        mul_one_div_self_le_one, div_mul_div_cancel_le_one]
  · by_cases hs : 0 < s <;>
      simp [process_meteora_damm_pools, hs, cpPairAdds, mul_one_div_self_le_one, div_mul_div_cancel_le_one]
  · by_cases hs : 0 < s <;>
      simp [process_meteora_damm_v2_pools, hs, cpPairAdds, mul_one_div_self_le_one, div_mul_div_cancel_le_one]
  · by_cases hs : 0 < s <;>
      simp [process_vertigo_pools, hs, cpPairAdds, mul_one_div_self_le_one, div_mul_div_cancel_le_one]
  · by_cases hs : 0 < s <;>
      simp [process_heaven_pools, hs, cpPairAdds, mul_one_div_self_le_one, div_mul_div_cancel_le_one]
  · by_cases hs : 0 < s <;>
      simp [process_futarchy_pools, hs, cpPairAdds, mul_one_div_self_le_one, div_mul_div_cancel_le_one]
  · by_cases hs : 0 < s <;>
      simp [process_humidifi_pools, hs, cpPairAdds, mul_one_div_self_le_one, div_mul_div_cancel_le_one]

lemma toU64_le_of_le (q : ℚ) (n : ℕ) (h : q ≤ (n : ℚ)) : toU64 q ≤ n := by
  unfold toU64
  split
  · exact Nat.zero_le n
  · refine le_trans (min_le_right _ _) ?_
    have h1 : ⌊q⌋ ≤ (n : ℤ) := by
      calc ⌊q⌋ ≤ ⌊(n : ℚ)⌋ := Int.floor_le_floor h
      _ = (n : ℤ) := Int.floor_natCast n
    exact Int.toNat_le.mpr h1

lemma calculate_slippage_bps_bounds (g : PriceGraph) (amount pool : ℕ)
    (h : amount < U64MOD) :
    10 ≤ calculate_slippage_bps g amount pool ∧
      calculate_slippage_bps g amount pool ≤ 100 := by
  unfold calculate_slippage_bps
  cases hf : findPoolEdge g pool with
  | none => exact ⟨by norm_num, by norm_num⟩
  | some edge =>
    simp only
    have htr : (0 : ℚ) ≤ (amount : ℚ) / 10 ^ 9 * 200 := by positivity
    have hratio : (amount : ℚ) / 10 ^ 9 * 200 / max edge.liquidity_usd 1
        ≤ (amount : ℚ) / 10 ^ 9 * 200 :=
      div_le_self htr (le_max_right _ _)
    have hA : (amount : ℚ) < ((2 : ℚ) ^ 64) := by
      have := h
      rw [U64MOD] at this
      exact_mod_cast this
    have hq : (amount : ℚ) / 10 ^ 9 * 200 / max edge.liquidity_usd 1 * (1 / 2) * 100
        ≤ (((2 : ℕ) ^ 50 : ℕ) : ℚ) := by
      have h1 : (amount : ℚ) / 10 ^ 9 * 200 / max edge.liquidity_usd 1 * (1 / 2) * 100
          = ((amount : ℚ) / 10 ^ 9 * 200 / max edge.liquidity_usd 1) * 50 := by ring
      have h2 : ((amount : ℚ) / 10 ^ 9 * 200 / max edge.liquidity_usd 1) * 50
          ≤ ((amount : ℚ) / 10 ^ 9 * 200) * 50 :=
        mul_le_mul_of_nonneg_right hratio (by norm_num)
      have h3 : ((amount : ℚ) / 10 ^ 9 * 200) * 50 ≤ (((2 : ℕ) ^ 50 : ℕ) : ℚ) := by
        push_cast
        nlinarith [hA]
      linarith [h1.le, h1.ge, h2, h3]
    have hd : toU64 ((amount : ℚ) / 10 ^ 9 * 200 / max edge.liquidity_usd 1 * (1 / 2) * 100)
        ≤ 2 ^ 50 := toU64_le_of_le _ _ hq
    have hd' : toU64 ((amount : ℚ) / 10 ^ 9 * 200 / max edge.liquidity_usd 1 * (1 / 2) * 100)
        ≤ 1125899906842624 := by
      calc toU64 _ ≤ 2 ^ 50 := hd
      _ = 1125899906842624 := by norm_num
    have hM : U64MOD = 18446744073709551616 := by norm_num [U64MOD]
    have hmod : (10 + toU64 ((amount : ℚ) / 10 ^ 9 * 200 / max edge.liquidity_usd 1
        * (1 / 2) * 100)) % U64MOD
        = 10 + toU64 ((amount : ℚ) / 10 ^ 9 * 200 / max edge.liquidity_usd 1
        * (1 / 2) * 100) := by
      apply Nat.mod_eq_of_lt
      omega
    rw [hmod]
    constructor
    · exact le_min (by omega) (by norm_num)
    · exact min_le_right _ _

lemma calculate_slippage_bps_default (g : PriceGraph) (amount pool : ℕ)
    (h : findPoolEdge g pool = none) :
    calculate_slippage_bps g amount pool = 50 := by
  unfold calculate_slippage_bps
  rw [h]

/-- C10: every edge any ingestion installer emits carries
`fee_bps ≤ 100`; `calculate_slippage_bps` always lands in `[10, 100]`
for `u64` amounts (and is exactly 50 when the pool is absent; the
division is guarded by `max(liquidity, 1)`); hence for any leg whose
edge the simulation finds, `effective_fee_bps ≤ 200`, so the `u64`
subtraction `10_000 − effective_fee_bps` does not underflow and the fee
multiplier is strictly positive. -/
theorem claim10_effective_fee_bounded :
    (∀ mint sol tp pool t s,
      ∀ a ∈ process_raydium_pools mint sol tp pool t s, a.2.2.fee_bps ≤ 100) ∧
    (∀ mint sol tp pool t s,
      ∀ a ∈ process_raydium_cp_pools mint sol tp pool t s, a.2.2.fee_bps ≤ 100) ∧
    (∀ mint sol tp pool t s,
      ∀ a ∈ process_pump_pools mint sol tp pool t s, a.2.2.fee_bps ≤ 100) ∧
    (∀ mint sol tp pool t s,
      ∀ a ∈ process_meteora_damm_pools mint sol tp pool t s, a.2.2.fee_bps ≤ 100) ∧
    (∀ mint sol tp pool t s,
      ∀ a ∈ process_meteora_damm_v2_pools mint sol tp pool t s, a.2.2.fee_bps ≤ 100) ∧
    (∀ mint sol tp pool t s,
      ∀ a ∈ process_vertigo_pools mint sol tp pool t s, a.2.2.fee_bps ≤ 100) ∧
    (∀ mint base tp pool ra rb,
      ∀ a ∈ process_heaven_pools mint base tp pool ra rb, a.2.2.fee_bps ≤ 100) ∧
    (∀ mint sol tp dao t s,
      ∀ a ∈ process_futarchy_pools mint sol tp dao t s, a.2.2.fee_bps ≤ 100) ∧
    (∀ mint sol tp pool t s,
      ∀ a ∈ process_humidifi_pools mint sol tp pool t s, a.2.2.fee_bps ≤ 100) ∧
    (∀ tm m0 m1 tp pool sq liq,
      ∀ a ∈ process_raydium_clmm_pools tm m0 m1 tp pool sq liq, a.2.2.fee_bps ≤ 100) ∧
    (∀ tm ma mb tp pool sq liq,
      ∀ a ∈ process_whirlpool_pools tm ma mb tp pool sq liq, a.2.2.fee_bps ≤ 100) ∧
    (∀ tm mx my tp pair bs aid,
      ∀ a ∈ process_dlmm_pools tm mx my tp pair bs aid, a.2.2.fee_bps ≤ 100) ∧
    (∀ tm m0 m1 tp pool ow pr sq liq,
      ∀ a ∈ process_pancakeswap_pools tm m0 m1 tp pool ow pr sq liq,
        a.2.2.fee_bps ≤ 100) ∧
    (∀ tm m0 m1 tp pool ow pr sq liq,
      ∀ a ∈ process_byreal_pools tm m0 m1 tp pool ow pr sq liq,
        a.2.2.fee_bps ≤ 100) ∧
    (∀ (g : PriceGraph) (amount pool : ℕ), amount < U64MOD →
      10 ≤ calculate_slippage_bps g amount pool ∧
        calculate_slippage_bps g amount pool ≤ 100) ∧
    (∀ (g : PriceGraph) (amount pool : ℕ), findPoolEdge g pool = none →
      calculate_slippage_bps g amount pool = 50) ∧
    (∀ (g : PriceGraph) (leg : SwapLeg) (amount : ℕ) (e : PoolEdge),
      find_edge_in_graph g leg = some e → e.fee_bps ≤ 100 → amount < U64MOD →
        (e.fee_bps + calculate_slippage_bps g amount leg.pool_pubkey) % U64MOD ≤ 200 ∧
        u64sub 10000
            ((e.fee_bps + calculate_slippage_bps g amount leg.pool_pubkey) % U64MOD)
          = 10000 - (e.fee_bps + calculate_slippage_bps g amount leg.pool_pubkey) ∧
        0 < (u64sub 10000
            ((e.fee_bps + calculate_slippage_bps g amount leg.pool_pubkey) % U64MOD) : ℚ)
          / 10000) := by
  refine ⟨?_, ?_, ?_, ?_, ?_, ?_, ?_, ?_, ?_, ?_, ?_, ?_, ?_, ?_, ?_, ?_, ?_⟩
  · intro mint sol tp pool t s a ha
    by_cases hs : s = 0 <;>
      simp [process_raydium_pools, get_amm_price, hs] at ha <;>
      try rcases ha with rfl | rfl <;> norm_num
  · intro mint sol tp pool t s a ha
    by_cases hs : s = 0 <;>
      simp [process_raydium_cp_pools, get_amm_price, hs] at ha <;>
      try rcases ha with rfl | rfl <;> norm_num
  · intro mint sol tp pool t s a ha
    by_cases hs : s = 0 <;>
      simp [process_pump_pools, get_amm_price, hs] at ha <;>
      try rcases ha with rfl | rfl <;> norm_num
  · intro mint sol tp pool t s a ha
    by_cases hs : 0 < s <;>
      simp [process_meteora_damm_pools, hs] at ha <;>
      try rcases ha with rfl | rfl <;> norm_num
  · intro mint sol tp pool t s a ha
    by_cases hs : 0 < s <;>
      simp [process_meteora_damm_v2_pools, hs] at ha <;>
      try rcases ha with rfl | rfl <;> norm_num
  · intro mint sol tp pool t s a ha
    by_cases hs : 0 < s <;>
      simp [process_vertigo_pools, hs] at ha <;>
      try rcases ha with rfl | rfl <;> norm_num
  · intro mint base tp pool ra rb a ha
    by_cases hs : 0 < rb <;>
      simp [process_heaven_pools, hs] at ha <;>
      try rcases ha with rfl | rfl <;> norm_num
  · intro mint sol tp dao t s a ha
    by_cases hs : 0 < s <;>
      simp [process_futarchy_pools, hs] at ha <;>
      try rcases ha with rfl | rfl <;> norm_num
  · intro mint sol tp pool t s a ha
    by_cases hs : 0 < s <;>
      simp [process_humidifi_pools, hs] at ha <;>
      try rcases ha with rfl | rfl <;> norm_num
  · intro tm m0 m1 tp pool sq liq a ha
    by_cases hm : tm = m0 <;>
      simp [process_raydium_clmm_pools, hm] at ha <;>
      rcases ha with rfl | rfl <;> norm_num
  · intro tm ma mb tp pool sq liq a ha
    by_cases hm : tm = ma <;>
      simp [process_whirlpool_pools, hm] at ha <;>
      rcases ha with rfl | rfl <;> norm_num
  · intro tm mx my tp pair bs aid a ha
    by_cases hm : tm = mx <;>
      simp [process_dlmm_pools, hm] at ha <;>
      rcases ha with rfl | rfl <;> norm_num
  · intro tm m0 m1 tp pool ow pr sq liq a ha
    by_cases ho : ow ≠ pr
    · simp [process_pancakeswap_pools, ho] at ha
    · by_cases hm : tm = m0 <;>
        simp [process_pancakeswap_pools, ho, hm] at ha <;>
        rcases ha with rfl | rfl <;> norm_num
  · intro tm m0 m1 tp pool ow pr sq liq a ha
    by_cases ho : ow ≠ pr
    · simp [process_byreal_pools, ho] at ha
    · by_cases hm : tm = m0 <;>
        simp [process_byreal_pools, ho, hm] at ha <;>
        rcases ha with rfl | rfl <;> norm_num
  · intro g amount pool h
    exact calculate_slippage_bps_bounds g amount pool h
  · intro g amount pool h
    exact calculate_slippage_bps_default g amount pool h
  · intro g leg amount e hf hfee hamt
    obtain ⟨hs1, hs2⟩ := calculate_slippage_bps_bounds g amount leg.pool_pubkey hamt
    have hM : U64MOD = 18446744073709551616 := by norm_num [U64MOD]
    have hmod : (e.fee_bps + calculate_slippage_bps g amount leg.pool_pubkey) % U64MOD
        = e.fee_bps + calculate_slippage_bps g amount leg.pool_pubkey := by
      apply Nat.mod_eq_of_lt
      omega
    have hsub : u64sub 10000
        ((e.fee_bps + calculate_slippage_bps g amount leg.pool_pubkey) % U64MOD)
        = 10000 - (e.fee_bps + calculate_slippage_bps g amount leg.pool_pubkey) := by
      rw [hmod]
      unfold u64sub
      rw [hM]
      omega
    refine ⟨by omega, hsub, ?_⟩
    have hpos : 0 < u64sub 10000
        ((e.fee_bps + calculate_slippage_bps g amount leg.pool_pubkey) % U64MOD) := by
      rw [hsub]; omega
    exact div_pos (by exact_mod_cast hpos) (by norm_num)

/-- Witness for C10: a concrete Raydium installer edge (fee 25), a
concrete graph whose slippage lands in `[10, 100]`, the absent-pool
default of 50, and a concrete leg whose effective fee stays at most 200
with a positive multiplier. -/
theorem claim10_effective_fee_bounded_witness :
    let e : PoolEdge := ⟨7, .raydiumV4, 2, 1000000000, 25, 25, 9⟩
    let g0 : PriceGraph := [(0, [e])]
    let leg : SwapLeg := ⟨0, 1, 7, .raydiumV4, 0, 0⟩
    ((1, 0, (⟨5, .raydiumV4, 1 / 2, 5000, 25, 25, 9⟩ : PoolEdge)) :
        Pubkey × Pubkey × PoolEdge).2.2.fee_bps ≤ 100 ∧
    (10 ≤ calculate_slippage_bps g0 1000000 7 ∧
      calculate_slippage_bps g0 1000000 7 ≤ 100) ∧
    calculate_slippage_bps [] 5 3 = 50 ∧
    ((e.fee_bps + calculate_slippage_bps g0 1000000 leg.pool_pubkey) % U64MOD ≤ 200 ∧
     u64sub 10000
         ((e.fee_bps + calculate_slippage_bps g0 1000000 leg.pool_pubkey) % U64MOD)
       = 10000 - (e.fee_bps + calculate_slippage_bps g0 1000000 leg.pool_pubkey) ∧
     0 < (u64sub 10000
         ((e.fee_bps + calculate_slippage_bps g0 1000000 leg.pool_pubkey) % U64MOD) : ℚ)
       / 10000) := by
  intro e g0 leg
  obtain ⟨f1, f2, f3, f4, f5, f6, f7, f8, f9, f10, f11, f12, f13, f14, hb, hdef, heff⟩ :=
    claim10_effective_fee_bounded
  refine ⟨?_, ?_, ?_, ?_⟩
  · exact f1 1 0 9 5 10 20 _ (by decide)
  · exact hb g0 1000000 7 (by decide)
  · exact hdef [] 5 3 (by decide)
  · exact heff g0 leg 1000000 e (by decide) (by decide) (by decide)

lemma identify_mem (o : String) (x : String × String)
    (h : identify_specific_dex_type o = some x) : o ∈ whitelistPrograms := by
  unfold identify_specific_dex_type at h
  split_ifs at h with h1 h2 h3 h4 h5 h6 h7
  · simp [whitelistPrograms, h1]
  · simp [whitelistPrograms, h2]
  · simp [whitelistPrograms, h3]
  · simp [whitelistPrograms, h4]
  · simp [whitelistPrograms, h5]
  · simp [whitelistPrograms, h6]
  · simp [whitelistPrograms, h7]

lemma verify_ok_some (chain : ChainView) (addr : String) (x : String × String)
    (h : verify_pool_on_chain chain addr = .ok (some x)) :
    ∃ o, chain.owner addr = some o ∧ o ∈ whitelistPrograms := by
  unfold verify_pool_on_chain at h
  by_cases hp : chain.parse_ok addr = false
  · rw [if_pos hp] at h
    cases h
  · rw [if_neg hp] at h
    cases ho : chain.owner addr with
    | none => rw [ho] at h; cases h
    | some o =>
      rw [ho] at h
      injection h with h'
      exact ⟨o, rfl, identify_mem o x h'⟩

lemma processPairs_mem (chain : ChainView) (config : DiscoveryConfig) :
    ∀ (pairs : List DexscreenerPair) (st res : List DiscoveredPool × String × String),
      processPairs chain config pairs st = .ok res →
      ∀ p ∈ res.1, p ∈ st.1 ∨
        ∃ o, chain.owner p.pool_address = some o ∧ o ∈ whitelistPrograms := by
  intro pairs
  induction pairs with
  | nil =>
    intro st res h p hp
    unfold processPairs at h
    injection h with h
    subst h
    exact Or.inl hp
  | cons pair rest ih =>
    intro st res h p hp
    obtain ⟨pools, tn, ts⟩ := st
    unfold processPairs at h
    cases hbase : pair.base_token with
    | none =>
      simp only [hbase] at h
      exact ih _ _ h p hp
    | some base =>
      cases hquote : pair.quote_token with
      | none =>
        simp only [hbase, hquote] at h
        exact ih _ _ h p hp
      | some quote =>
        simp only [hbase, hquote] at h
        by_cases hb : base.address = SOL_MINT
        · simp only [hb, if_true] at h
          cases hv : verify_pool_on_chain chain pair.pair_address with
          | error e => simp [hv] at h
          | ok vo =>
            cases vo with
            | none =>
              simp only [hv] at h
              exact ih _ _ h p hp
            | some dp =>
              obtain ⟨dex, pid⟩ := dp
              simp only [hv] at h
              by_cases hlv : config.min_liquidity_usd ≤ pair.liquidity_usd.getD 0 ∧
                  config.min_volume_h24 ≤ pair.volume_h24.getD 0
              · rw [if_pos hlv] at h
                rcases ih _ _ h p hp with hmem | hex
                · rcases List.mem_append.mp hmem with hmem | hmem
                  · exact Or.inl hmem
                  · have hpp := List.mem_singleton.mp hmem
                    subst hpp
                    exact Or.inr (verify_ok_some chain pair.pair_address (dex, pid) hv)
                · exact Or.inr hex
              · rw [if_neg hlv] at h
                exact ih _ _ h p hp
        · by_cases hq : quote.address = SOL_MINT
          · simp only [hb, if_false, hq, if_true] at h
            cases hv : verify_pool_on_chain chain pair.pair_address with
            | error e => simp [hv] at h
            | ok vo =>
              cases vo with
              | none =>
                simp only [hv] at h
                exact ih _ _ h p hp
              | some dp =>
                obtain ⟨dex, pid⟩ := dp
                simp only [hv] at h
                by_cases hlv : config.min_liquidity_usd ≤ pair.liquidity_usd.getD 0 ∧
                    config.min_volume_h24 ≤ pair.volume_h24.getD 0
                · rw [if_pos hlv] at h
                  rcases ih _ _ h p hp with hmem | hex
                  · rcases List.mem_append.mp hmem with hmem | hmem
                    · exact Or.inl hmem
                    · have hpp := List.mem_singleton.mp hmem
                      subst hpp
                      exact Or.inr
                        (verify_ok_some chain pair.pair_address (dex, pid) hv)
                  · exact Or.inr hex
                · rw [if_neg hlv] at h
                  exact ih _ _ h p hp
          · simp only [hb, hq, if_false] at h
            exact ih _ _ h p hp

lemma process_token_mem (chain : ChainView) (config : DiscoveryConfig)
    (token_addr : String) (fetched : Option (List DexscreenerPair))
    (tg : DiscoveredToken)
    (h : process_token chain config token_addr fetched = .ok (some tg)) :
    tg.token_address = token_addr ∧
      ∀ p ∈ tg.pools,
        ∃ o, chain.owner p.pool_address = some o ∧ o ∈ whitelistPrograms := by
  cases fetched with
  | none => simp [process_token] at h
  | some pairs =>
    simp only [process_token] at h
    cases hres : processPairs chain config pairs ([], "Unknown", "UNK") with
    | error e => simp [hres] at h
    | ok res =>
      obtain ⟨vp, tn2, ts2⟩ := res
      simp only [hres] at h
      split at h
      · simp at h
      · injection h with h
        injection h with h
        subst h
        refine ⟨rfl, fun p hp => ?_⟩
        simp only [List.mem_insertionSort] at hp
        rcases processPairs_mem chain config pairs _ _ hres p hp with hmem | hex
        · cases hmem
        · exact hex

/-- C9: every token in the snapshot emitted by run_discovery has an
address outside the three-mint denylist, and every one of its pools was
admitted through an on-chain owner fetch that returned one of the 7
whitelisted AMM program identifiers. -/
theorem claim9_discovery_admission (chain : ChainView) (config : DiscoveryConfig)
    (trending_ids top_ids : List (Option String))
    (dexscreener : String → Option (List DexscreenerPair)) (now : ℕ) :
    ∀ t ∈ (run_discovery chain config trending_ids top_ids dexscreener now).tokens,
      t.token_address ∉ ignoredMints ∧
      ∀ p ∈ t.pools,
        ∃ o, chain.owner p.pool_address = some o ∧ o ∈ whitelistPrograms := by
  intro t ht
  simp only [run_discovery] at ht
  rw [List.mem_insertionSort, List.mem_filterMap] at ht
  obtain ⟨addr, haddr, hfm⟩ := ht
  rw [List.mem_dedup, List.mem_filter] at haddr
  have haddr2 : addr ∉ ignoredMints := of_decide_eq_true haddr.2
  cases hpt : process_token chain config addr (dexscreener addr) with
  | error e =>
    simp only [hpt] at hfm
    cases hfm
  | ok r =>
    cases r with
    | none =>
      simp only [hpt] at hfm
      cases hfm
    | some tg =>
      simp only [hpt] at hfm
      split at hfm
      · injection hfm with hfm
        subst hfm
        obtain ⟨hta, hpools⟩ := process_token_mem chain config addr _ tg hpt
        exact ⟨hta ▸ haddr2, hpools⟩
      · cases hfm

/-- Witness for C9 on a concrete harvest: one gecko id `solana_TOK`,
two SOL-paired pools whose on-chain owners are the Raydium V4 and pump
programs; the emitted token `TOK` avoids the denylist and its first
pool's owner is whitelisted. -/
theorem claim9_discovery_admission_witness :
    let chainW : ChainView :=
      ⟨fun _ => true,
       fun a => if a = "P1" then some RAYDIUM_V4_PROGRAM
                else if a = "P2" then some PUMP_PROGRAM else none⟩
    let pair1 : DexscreenerPair :=
      ⟨"P1", "raydium", some 5000, some 900,
       some ⟨SOL_MINT, some "Wrapped SOL", some "SOL"⟩, some ⟨"TOK", none, none⟩⟩
    let pair2 : DexscreenerPair :=
      ⟨"P2", "pump", some 100, some 5, some ⟨SOL_MINT, none, none⟩,
       some ⟨"TOK", none, none⟩⟩
    let pool1 : DiscoveredPool :=
      ⟨"P1", "raydium-v4", RAYDIUM_V4_PROGRAM, 5000, 900, "base"⟩
    let pool2 : DiscoveredPool :=
      ⟨"P2", "pump", PUMP_PROGRAM, 100, 5, "base"⟩
    let t : DiscoveredToken := ⟨"TOK", "", "UNK", 5100, [pool1, pool2]⟩
    t.token_address ∉ ignoredMints ∧
      ∃ o, chainW.owner pool1.pool_address = some o ∧ o ∈ whitelistPrograms := by
  intro chainW pair1 pair2 pool1 pool2 t
  have h := claim9_discovery_admission chainW ⟨0, 0⟩ [some "solana_TOK"] []
    (fun a => if a = "TOK" then some [pair1, pair2] else none) 1700000000
    t (by decide)
  exact ⟨h.1, h.2 pool1 (by decide)⟩

@[simp] lemma swapLeg_with_amount_pool (leg : SwapLeg) (c : ℕ) :
    ({ leg with amount_in := c } : SwapLeg).pool_pubkey = leg.pool_pubkey := rfl

@[simp] lemma swapLeg_with_amount_from (leg : SwapLeg) (c : ℕ) :
    ({ leg with amount_in := c } : SwapLeg).from_mint = leg.from_mint := rfl

@[simp] lemma swapLeg_with_amount_dex (leg : SwapLeg) (c : ℕ) :
    ({ leg with amount_in := c } : SwapLeg).dex_type = leg.dex_type := rfl

lemma find_edge_with_amount (g : PriceGraph) (leg : SwapLeg) (c : ℕ) :
    find_edge_in_graph g { leg with amount_in := c } = find_edge_in_graph g leg := rfl

lemma updateLegs_final (g : PriceGraph) :
    ∀ (legs : List SwapLeg) (c fin : ℕ),
      simulateLegs g legs c = some fin → (updateLegs g legs c).2 = fin := by
  intro legs
  induction legs with
  | nil =>
    intro c fin h
    unfold simulateLegs at h
    cases h
    rfl
  | cons leg rest ih =>
    intro c fin h
    unfold simulateLegs at h
    cases hstep : simulateLeg g c leg with
    | none =>
      simp only [hstep] at h
      cases h
    | some next =>
      simp only [hstep] at h
      unfold simulateLeg at hstep
      cases hf : find_edge_in_graph g leg with
      | none =>
        simp only [hf] at hstep
        cases hstep
      | some edge =>
        simp only [hf] at hstep
        split at hstep
        · cases hstep
        · injection hstep with hstep
          simp only [updateLegs, find_edge_with_amount, hf, swapLeg_with_amount_pool]
          rw [hstep]
          exact ih next fin h

/-- Invariant of the optimizer's 20-iteration binary search: the
bracket stays inside `[1_000_000, cap]` and any recorded best amount
re-simulates to its recorded profit, which exceeds `min_profit`. -/
lemma optSearch_inv (g : PriceGraph) (legs : List SwapLeg) (minP cap : ℕ)
    (hcap : cap ≤ (U64MOD - 1) / 100) :
    ∀ (n : ℕ) (s : OptState),
      1000000 ≤ s.low → s.low ≤ s.high → s.high ≤ cap →
      (s.best_amount = 0 ∨
        (1000000 ≤ s.best_amount ∧ s.best_amount ≤ cap ∧
         simulate_cycle_with_amount g legs s.best_amount = some s.best_profit ∧
         minP < s.best_profit)) →
      (1000000 ≤ (optSearch g legs minP n s).low ∧
       (optSearch g legs minP n s).low ≤ (optSearch g legs minP n s).high ∧
       (optSearch g legs minP n s).high ≤ cap ∧
       ((optSearch g legs minP n s).best_amount = 0 ∨
        (1000000 ≤ (optSearch g legs minP n s).best_amount ∧
         (optSearch g legs minP n s).best_amount ≤ cap ∧
         simulate_cycle_with_amount g legs (optSearch g legs minP n s).best_amount
           = some (optSearch g legs minP n s).best_profit ∧
         minP < (optSearch g legs minP n s).best_profit))) := by
  intro n
  induction n with
  | zero =>
    intro s h1 h2 h3 h4
    exact ⟨h1, h2, h3, h4⟩
  | succ n ih =>
    intro s h1 h2 h3 h4
    have hM : U64MOD = 18446744073709551616 := by norm_num [U64MOD]
    have hcap' : cap ≤ 184467440737095516 := by
      rw [hM] at hcap
      omega
    have hsum : s.low + s.high < U64MOD := by
      rw [hM]
      omega
    have hmod : (s.low + s.high) % U64MOD = s.low + s.high := Nat.mod_eq_of_lt hsum
    have hmid_lb : s.low ≤ (s.low + s.high) % U64MOD / 2 := by
      rw [hmod]; omega
    have hmid_ub : (s.low + s.high) % U64MOD / 2 ≤ s.high := by
      rw [hmod]; omega
    simp only [optSearch]
    cases hsim : simulate_cycle_with_amount g legs ((s.low + s.high) % U64MOD / 2) with
    | none =>
      simp only [hsim]
      exact ih _ h1 hmid_lb (le_trans hmid_ub h3) h4
    | some profit =>
      simp only [hsim]
      by_cases hcond : s.best_profit < profit ∧ minP < profit
      · rw [if_pos hcond]
        refine ih _ (le_trans h1 hmid_lb) hmid_ub h3 (Or.inr ?_)
        exact ⟨le_trans h1 hmid_lb, le_trans hmid_ub h3, hsim, hcond.2⟩
      · rw [if_neg hcond]
        exact ih _ h1 hmid_lb (le_trans hmid_ub h3) h4

/-- C7: optimize_amount returns none when the cap
`max_capital * capital_pct / 100` (a wrapping u64 product) is below the
floor of 1_000_000; otherwise any returned amount lies in
`[1_000_000, cap]`, re-simulates to a profit strictly above both zero
and `min_profit`, and the returned cycle's `estimated_profit_lamports`
is exactly `final_amount − initial_amount` of that simulation. -/
theorem claim7_optimize_spec (g : PriceGraph) (cycle : ArbitrageCycle)
    (maxCap pct minP : ℕ) :
    (maxCap * pct % U64MOD / 100 < 1000000 →
      optimize_amount g cycle maxCap pct minP = (none, cycle)) ∧
    (∀ (a : ℕ) (c' : ArbitrageCycle),
      optimize_amount g cycle maxCap pct minP = (some a, c') →
      1000000 ≤ a ∧ a ≤ maxCap * pct % U64MOD / 100 ∧
      ∃ p, simulate_cycle_with_amount g cycle.legs a = some p ∧
        0 < p ∧ minP < p ∧
        ∃ fin, simulateLegs g cycle.legs a = some fin ∧ a < fin ∧ p = fin - a ∧
          c'.estimated_profit_lamports = fin - a) := by
  constructor
  · intro h
    simp only [optimize_amount]
    rw [if_pos h]
  · intro a c' h
    by_cases hcap : maxCap * pct % U64MOD / 100 < 1000000
    · simp only [optimize_amount] at h
      rw [if_pos hcap] at h
      cases h
    · simp only [optimize_amount] at h
      rw [if_neg hcap] at h
      have hcap' : maxCap * pct % U64MOD / 100 ≤ (U64MOD - 1) / 100 := by
        have hm : maxCap * pct % U64MOD ≤ U64MOD - 1 := by
          have := Nat.mod_lt (maxCap * pct) (show 0 < U64MOD by norm_num [U64MOD])
          omega
        exact Nat.div_le_div_right hm
      have hinv := optSearch_inv g cycle.legs minP (maxCap * pct % U64MOD / 100)
        hcap' 20
        ⟨1000000, maxCap * pct % U64MOD / 100, 0, 0⟩
        (le_refl _) (not_lt.mp hcap) (le_refl _) (Or.inl rfl)
      set s := optSearch g cycle.legs minP 20
        ⟨1000000, maxCap * pct % U64MOD / 100, 0, 0⟩ with hs
      by_cases hfin : 0 < s.best_amount ∧ minP < s.best_profit
      · rw [if_pos hfin] at h
        have ha : some s.best_amount = some a := congrArg Prod.fst h
        have hc : update_leg_amounts g cycle s.best_amount = c' := congrArg Prod.snd h
        injection ha with ha
        rcases hinv.2.2.2 with hzero | ⟨hb1, hb2, hbsim, hbp⟩
        · rw [hzero] at hfin
          exact absurd hfin.1 (by norm_num)
        · subst ha
          refine ⟨hb1, hb2, s.best_profit, hbsim, ?_, hfin.2, ?_⟩
          · omega
          · unfold simulate_cycle_with_amount at hbsim
            cases hsl : simulateLegs g cycle.legs s.best_amount with
            | none =>
              simp only [hsl] at hbsim
              cases hbsim
            | some fin =>
              simp only [hsl] at hbsim
              split at hbsim
              · rename_i hlt
                injection hbsim with hbsim
                refine ⟨fin, rfl, hlt, hbsim.symm, ?_⟩
                rw [← hc]
                simp only [update_leg_amounts]
                rw [updateLegs_final g cycle.legs s.best_amount fin hsl]
              · cases hbsim
      · rw [if_neg hfin] at h
        cases h

set_option maxRecDepth 100000 in
/-- Witness for C7: a concrete one-leg cycle over a deep pool.  With a
zero capital cap the optimizer returns none; with the bot's production
parameters it returns amount 399999619, which re-simulates to final
amount 797199240 and profit 397199621 > 500000, recorded in the
returned cycle. -/
theorem claim7_optimize_spec_witness :
    let e : PoolEdge := ⟨5, .raydiumV4, 2, 10 ^ 9, 25, 25, 9⟩
    let gw : PriceGraph := [(0, [e])]
    let cyc : ArbitrageCycle := ⟨[⟨0, 1, 5, .raydiumV4, 0, 0⟩], 10000, 0, 1⟩
    let cyc' : ArbitrageCycle :=
      ⟨[⟨0, 1, 5, .raydiumV4, 399999619, 797199240⟩], 10000, 397199621, 1⟩
    (optimize_amount gw cyc 0 20 500000 = (none, cyc)) ∧
    (1000000 ≤ 399999619 ∧ 399999619 ≤ 2000000000 * 20 % U64MOD / 100 ∧
      ∃ p, simulate_cycle_with_amount gw cyc.legs 399999619 = some p ∧
        0 < p ∧ 500000 < p ∧
        ∃ fin, simulateLegs gw cyc.legs 399999619 = some fin ∧ 399999619 < fin ∧
          p = fin - 399999619 ∧ cyc'.estimated_profit_lamports = fin - 399999619) := by
  intro e gw cyc cyc'
  constructor
  · exact (claim7_optimize_spec gw cyc 0 20 500000).1 (by decide)
  · exact (claim7_optimize_spec gw cyc 2000000000 20 500000).2 399999619 cyc'
      (by decide)
